import Mathlib

/-!
Verification of the MFEM quadrature-interpolator gradient kernels
(`fem/qinterp/grad.hpp`): `Derivatives1D`, `Derivatives2D`, `Derivatives3D`.

The kernels are shallowly embedded over an arbitrary field `K` ("exact real
arithmetic"): machine buffers become flat index functions `Nat → K`, the
`Reshape` views become explicit column-major (first index fastest) offset
computations, the accumulation loops become `List.foldl` over `List.range`,
and the writes of a kernel invocation become an explicit list of
(offset, value) pairs applied in program order to the caller's output buffer.
-/

namespace QuadratureInterpolator

/-- Column-major flattening of a multi-index, exactly as MFEM's `Reshape`
does it: for dims `[n₀, n₁, ...]` and index `[i₀, i₁, ...]` the offset is
`i₀ + n₀ * (i₁ + n₁ * (...))` (first index fastest). -/
def flatIdx : List Nat → List Nat → Nat
  | _, [] => 0
  | [], _ :: _ => 0
  | n :: ns, i :: is => i + n * flatIdx ns is

theorem flatIdx_nil (dims : List Nat) : flatIdx dims [] = 0 := by
  cases dims <;> rfl

theorem flatIdx_cons (n : Nat) (ns : List Nat) (i : Nat) (is : List Nat) :
    flatIdx (n :: ns) (i :: is) = i + n * flatIdx ns is := rfl

theorem flatIdx2 (a b i j : Nat) : flatIdx [a, b] [i, j] = i + a * j := by
  simp [flatIdx]

theorem flatIdx3 (a b c i j k : Nat) :
    flatIdx [a, b, c] [i, j, k] = i + a * (j + b * k) := by
  simp [flatIdx]

theorem flatIdx4 (a b c d i j k l : Nat) :
    flatIdx [a, b, c, d] [i, j, k, l] = i + a * (j + b * (k + c * l)) := by
  simp [flatIdx]

theorem flatIdx5 (a b c d e i j k l m : Nat) :
    flatIdx [a, b, c, d, e] [i, j, k, l, m] =
      i + a * (j + b * (k + c * (l + d * m))) := by
  simp [flatIdx]

theorem flatIdx6 (a b c d e f i j k l m n : Nat) :
    flatIdx [a, b, c, d, e, f] [i, j, k, l, m, n] =
      i + a * (j + b * (k + c * (l + d * (m + e * n)))) := by
  simp [flatIdx]

/-- One step of mixed-radix decoding: the fast index and the rest are
separately determined. -/
theorem mixed2_inj {a i i' x x' : Nat} (hi : i < a) (hi' : i' < a)
    (h : i + a * x = i' + a * x') : i = i' ∧ x = x' := by
  have hmod : (i + a * x) % a = (i' + a * x') % a := by rw [h]
  have h1 : i = i' := by
    rwa [Nat.add_mul_mod_self_left, Nat.add_mul_mod_self_left,
      Nat.mod_eq_of_lt hi, Nat.mod_eq_of_lt hi'] at hmod
  subst h1
  have h2 : a * x = a * x' := by omega
  have ha : 0 < a := lt_of_le_of_lt (Nat.zero_le i) hi
  exact ⟨rfl, Nat.eq_of_mul_eq_mul_left ha h2⟩

theorem mixed4_inj {a b c : Nat} {i j k l i' j' k' l' : Nat}
    (hi : i < a) (hj : j < b) (hk : k < c)
    (hi' : i' < a) (hj' : j' < b) (hk' : k' < c)
    (h : i + a * (j + b * (k + c * l)) = i' + a * (j' + b * (k' + c * l'))) :
    i = i' ∧ j = j' ∧ k = k' ∧ l = l' := by
  obtain ⟨h1, h2⟩ := mixed2_inj hi hi' h
  obtain ⟨h3, h4⟩ := mixed2_inj hj hj' h2
  obtain ⟨h5, h6⟩ := mixed2_inj hk hk' h4
  exact ⟨h1, h3, h5, h6⟩

theorem mixed5_inj {a b c d : Nat} {i j k l m i' j' k' l' m' : Nat}
    (hi : i < a) (hj : j < b) (hk : k < c) (hl : l < d)
    (hi' : i' < a) (hj' : j' < b) (hk' : k' < c) (hl' : l' < d)
    (h : i + a * (j + b * (k + c * (l + d * m))) =
         i' + a * (j' + b * (k' + c * (l' + d * m')))) :
    i = i' ∧ j = j' ∧ k = k' ∧ l = l' ∧ m = m' := by
  obtain ⟨h1, h2⟩ := mixed2_inj hi hi' h
  obtain ⟨h3, h4, h5, h6⟩ := mixed4_inj hj hk hl hj' hk' hl' h2
  exact ⟨h1, h3, h4, h5, h6⟩

theorem mixed6_inj {a b c d e : Nat} {i j k l m n i' j' k' l' m' n' : Nat}
    (hi : i < a) (hj : j < b) (hk : k < c) (hl : l < d) (hm : m < e)
    (hi' : i' < a) (hj' : j' < b) (hk' : k' < c) (hl' : l' < d) (hm' : m' < e)
    (h : i + a * (j + b * (k + c * (l + d * (m + e * n)))) =
         i' + a * (j' + b * (k' + c * (l' + d * (m' + e * n'))))) :
    i = i' ∧ j = j' ∧ k = k' ∧ l = l' ∧ m = m' ∧ n = n' := by
  obtain ⟨h1, h2⟩ := mixed2_inj hi hi' h
  obtain ⟨h3, h4, h5, h6, h7⟩ := mixed5_inj hj hk hl hm hj' hk' hl' hm' h2
  exact ⟨h1, h3, h4, h5, h6, h7⟩

section Buffers

variable {K : Type}

/-- Apply a list of (offset, value) writes, in order, to a flat buffer. -/
def runWrites (y : Nat → K) (ws : List (Nat × K)) : Nat → K :=
  ws.foldl (fun buf p => Function.update buf p.1 p.2) y

theorem runWrites_nil (y : Nat → K) : runWrites y [] = y := rfl

theorem runWrites_cons (y : Nat → K) (p : Nat × K) (ws : List (Nat × K)) :
    runWrites y (p :: ws) = runWrites (Function.update y p.1 p.2) ws := rfl

/-- An offset no write names is untouched. -/
theorem runWrites_of_forall_ne {ws : List (Nat × K)} {o : Nat}
    (h : ∀ p ∈ ws, p.1 ≠ o) (y : Nat → K) : runWrites y ws o = y o := by
  induction ws generalizing y with
  | nil => rfl
  | cons p ws ih =>
    rw [runWrites_cons, ih (fun q hq => h q (List.mem_cons_of_mem _ hq))]
    exact Function.update_noteq (Ne.symm (h p (List.mem_cons_self _ _))) _ _

/-- If each offset is written at most once, a written offset reads back the
written value (regardless of the buffer's prior contents). -/
theorem runWrites_mem_nodup {ws : List (Nat × K)} {o : Nat} {v : K}
    (hnd : (ws.map Prod.fst).Nodup) (hmem : (o, v) ∈ ws) (y : Nat → K) :
    runWrites y ws o = v := by
  induction ws generalizing y with
  | nil => cases hmem
  | cons p ws ih =>
    rw [List.map_cons, List.nodup_cons] at hnd
    rcases List.mem_cons.mp hmem with heq | hmem'
    · subst heq
      rw [runWrites_cons]
      have hnot : ∀ q ∈ ws, q.1 ≠ o := by
        intro q hq hqo
        have hq1 : q.1 ∈ List.map Prod.fst ws := List.mem_map_of_mem Prod.fst hq
        rw [hqo] at hq1
        exact hnd.1 hq1
      rw [runWrites_of_forall_ne hnot]
      exact Function.update_same _ _ _
    · exact ih hnd.2 hmem' _

end Buffers

section Folds

variable {K : Type} [Field K]

/-- An accumulation loop over `List.range` is the corresponding finite sum. -/
theorem foldl_add_eq_sum (f : Nat → K) (a : K) :
    ∀ n : Nat, (List.range n).foldl (fun acc i => acc + f i) a =
      a + ∑ i ∈ Finset.range n, f i := by
  intro n
  induction n generalizing a with
  | zero => simp
  | succ n ih =>
    rw [List.range_succ, List.foldl_append, ih, Finset.sum_range_succ]
    simp [add_assoc]

/-- A loop with two running accumulators is the pair of sums. -/
theorem foldl_pair_eq_sum (f g : Nat → K) (n : Nat) :
    (List.range n).foldl (fun (acc : K × K) i => (acc.1 + f i, acc.2 + g i)) (0, 0) =
      (∑ i ∈ Finset.range n, f i, ∑ i ∈ Finset.range n, g i) := by
  have key : ∀ (m : Nat) (a : K × K),
      (List.range m).foldl (fun (acc : K × K) i => (acc.1 + f i, acc.2 + g i)) a =
        (a.1 + ∑ i ∈ Finset.range m, f i, a.2 + ∑ i ∈ Finset.range m, g i) := by
    intro m
    induction m with
    | zero => simp
    | succ m ih =>
      intro a
      rw [List.range_succ, List.foldl_append, ih, Finset.sum_range_succ,
        Finset.sum_range_succ]
      simp [add_assoc]
  simpa using key n (0, 0)

/-- A loop with three running accumulators is the triple of sums. -/
theorem foldl_triple_eq_sum (f g h : Nat → K) (n : Nat) :
    (List.range n).foldl
        (fun (acc : K × K × K) i => (acc.1 + f i, acc.2.1 + g i, acc.2.2 + h i))
        (0, 0, 0) =
      (∑ i ∈ Finset.range n, f i, ∑ i ∈ Finset.range n, g i,
        ∑ i ∈ Finset.range n, h i) := by
  have key : ∀ (m : Nat) (a : K × K × K),
      (List.range m).foldl
          (fun (acc : K × K × K) i => (acc.1 + f i, acc.2.1 + g i, acc.2.2 + h i)) a =
        (a.1 + ∑ i ∈ Finset.range m, f i, a.2.1 + ∑ i ∈ Finset.range m, g i,
          a.2.2 + ∑ i ∈ Finset.range m, h i) := by
    intro m
    induction m with
    | zero => simp
    | succ m ih =>
      intro a
      rw [List.range_succ, List.foldl_append, ih, Finset.sum_range_succ,
        Finset.sum_range_succ, Finset.sum_range_succ]
      simp [add_assoc]
  simpa using key n (0, 0, 0)

end Folds

/-- All (i, j, k, l) with i < a, j < b, k < c, l < d, in nested loop order
(i outermost). -/
def tuple4 (a b c d : Nat) : List (Nat × Nat × Nat × Nat) :=
  List.range a ×ˢ (List.range b ×ˢ (List.range c ×ˢ List.range d))

theorem mem_tuple4 {a b c d : Nat} {t : Nat × Nat × Nat × Nat} :
    t ∈ tuple4 a b c d ↔ t.1 < a ∧ t.2.1 < b ∧ t.2.2.1 < c ∧ t.2.2.2 < d := by
  obtain ⟨i, j, k, l⟩ := t
  simp [tuple4, List.mem_product, List.mem_range]

theorem nodup_tuple4 (a b c d : Nat) : (tuple4 a b c d).Nodup :=
  (List.nodup_range a).product <| (List.nodup_range b).product <|
    (List.nodup_range c).product (List.nodup_range d)

/-- All (i, j, k, l, m) with bounds, in nested loop order. -/
def tuple5 (a b c d e : Nat) : List (Nat × Nat × Nat × Nat × Nat) :=
  List.range a ×ˢ (List.range b ×ˢ (List.range c ×ˢ (List.range d ×ˢ List.range e)))

theorem mem_tuple5 {a b c d e : Nat} {t : Nat × Nat × Nat × Nat × Nat} :
    t ∈ tuple5 a b c d e ↔
      t.1 < a ∧ t.2.1 < b ∧ t.2.2.1 < c ∧ t.2.2.2.1 < d ∧ t.2.2.2.2 < e := by
  obtain ⟨i, j, k, l, m⟩ := t
  simp [tuple5, List.mem_product, List.mem_range]

theorem nodup_tuple5 (a b c d e : Nat) : (tuple5 a b c d e).Nodup :=
  (List.nodup_range a).product <| (List.nodup_range b).product <|
    (List.nodup_range c).product <|
      (List.nodup_range d).product (List.nodup_range e)

/-- All (i, j, k, l, m, n) with bounds, in nested loop order. -/
def tuple6 (a b c d e f : Nat) : List (Nat × Nat × Nat × Nat × Nat × Nat) :=
  List.range a ×ˢ (List.range b ×ˢ (List.range c ×ˢ
    (List.range d ×ˢ (List.range e ×ˢ List.range f))))

theorem mem_tuple6 {a b c d e f : Nat} {t : Nat × Nat × Nat × Nat × Nat × Nat} :
    t ∈ tuple6 a b c d e f ↔
      t.1 < a ∧ t.2.1 < b ∧ t.2.2.1 < c ∧ t.2.2.2.1 < d ∧
        t.2.2.2.2.1 < e ∧ t.2.2.2.2.2 < f := by
  obtain ⟨i, j, k, l, m, n⟩ := t
  simp [tuple6, List.mem_product, List.mem_range]

theorem nodup_tuple6 (a b c d e f : Nat) : (tuple6 a b c d e f).Nodup :=
  (List.nodup_range a).product <| (List.nodup_range b).product <|
    (List.nodup_range c).product <| (List.nodup_range d).product <|
      (List.nodup_range e).product (List.nodup_range f)

/-- Output layout selector, as in `QVectorLayout` of the sources. -/
inductive QVectorLayout where
  | byNODES
  | byVDIM

section Model

variable {K : Type} [Field K]

/-- Basis-table accessor: `Reshape(b_, q1d, d1d)`, so `tab t q d = t_[q + q1d*d]`.
Covers both the value table `b` and the derivative table `g`. The kernels read
the tables through shared-memory copies loaded by `kernels::internal::LoadBG`
(from `fem/kernels.hpp`, not among the sources), which per the spec merely
stages the same read-only tables on chip: `B(d,q) = b(q,d)`, `G(d,q) = g(q,d)`. -/
def tab (q1d d1d : Nat) (t : Nat → K) (q d : Nat) : K :=
  t (flatIdx [q1d, d1d] [q, d])

/-- 1D Jacobian accessor: `Reshape(j_, q1d, sdim, NE)`. -/
def jac1 (q1d sdim NE : Nat) (j : Nat → K) (q s e : Nat) : K :=
  j (flatIdx [q1d, sdim, NE] [q, s, e])

/-- 1D input-field accessor: `Reshape(x_, d1d, vdim, NE)`. -/
def xin1 (d1d vdim NE : Nat) (x : Nat → K) (d c e : Nat) : K :=
  x (flatIdx [d1d, vdim, NE] [d, c, e])

/-- 2D Jacobian accessor: `Reshape(j_, Q1D, Q1D, SDIM, 2, NE)`;
`r` is the physical (row) index, `c` the reference (column) index. -/
def jac2 (q1d sdim NE : Nat) (j : Nat → K) (qx qy r c e : Nat) : K :=
  j (flatIdx [q1d, q1d, sdim, 2, NE] [qx, qy, r, c, e])

/-- 2D input-field accessor: `Reshape(x_, D1D, D1D, VDIM, NE)`. The kernel
reads it through the shared tile loaded by `kernels::internal::LoadX`
(`fem/kernels.hpp`, not among the sources), which per the spec stages one
(element, component) slice on chip: `X(dx,dy) = x(dx,dy,c,e)`. -/
def xin2 (d1d vdim NE : Nat) (x : Nat → K) (dx dy c e : Nat) : K :=
  x (flatIdx [d1d, d1d, vdim, NE] [dx, dy, c, e])

/-- 3D Jacobian accessor: `Reshape(j_, Q1D, Q1D, Q1D, 3, 3, NE)`. -/
def jac3 (q1d NE : Nat) (j : Nat → K) (qx qy qz r c e : Nat) : K :=
  j (flatIdx [q1d, q1d, q1d, 3, 3, NE] [qx, qy, qz, r, c, e])

/-- 3D input-field accessor: `Reshape(x_, D1D, D1D, D1D, VDIM, NE)`. -/
def xin3 (d1d vdim NE : Nat) (x : Nat → K) (dx dy dz c e : Nat) : K :=
  x (flatIdx [d1d, d1d, d1d, vdim, NE] [dx, dy, dz, c, e])

/-- Modelled from the spec: `kernels::CalcLeftInverse<2,1>` (declared in
`linalg/kernels.hpp`, which is not among the sources). Per spec §4.4 it is the
closed-form least-squares left inverse `(JᵀJ)⁻¹Jᵀ`; for a 2×1 column `J` that
is the row `Jᵀ/(J₀²+J₁²)`. Storage follows the callers' column-major
convention. -/
def CalcLeftInverse21 (J : Nat → K) : Nat → K :=
  fun i => J i / (J 0 * J 0 + J 1 * J 1)

/-- Modelled from the spec: `kernels::CalcLeftInverse<3,1>` (declared in
`linalg/kernels.hpp`, not among the sources) — the normal-equations left
inverse of a 3×1 column: `Jᵀ/(J₀²+J₁²+J₂²)`. -/
def CalcLeftInverse31 (J : Nat → K) : Nat → K :=
  fun i => J i / (J 0 * J 0 + J 1 * J 1 + J 2 * J 2)

/-- Modelled from the spec: `kernels::CalcInverse<2>` (declared in
`linalg/kernels.hpp`, not among the sources) — closed-form inverse of a 2×2
matrix via cofactor expansion (spec §4.4), in the callers' column-major
storage, `M(r,c) = A (r + 2*c)`, for both input and output. -/
def CalcInverse2 (A : Nat → K) : Nat → K :=
  let det := A 0 * A 3 - A 2 * A 1
  fun i =>
    if i = 0 then A 3 / det
    else if i = 1 then -A 1 / det
    else if i = 2 then -A 2 / det
    else A 0 / det

/-- Modelled from the spec: `kernels::CalcInverse<3>` (declared in
`linalg/kernels.hpp`, not among the sources) — closed-form inverse of a 3×3
matrix via cofactor expansion (spec §4.4), column-major in and out,
`M(r,c) = A (r + 3*c)`. -/
def CalcInverse3 (A : Nat → K) : Nat → K :=
  let det := A 0 * (A 4 * A 8 - A 7 * A 5) - A 3 * (A 1 * A 8 - A 7 * A 2)
    + A 6 * (A 1 * A 5 - A 4 * A 2)
  fun i =>
    if i = 0 then (A 4 * A 8 - A 7 * A 5) / det
    else if i = 1 then -(A 1 * A 8 - A 7 * A 2) / det
    else if i = 2 then (A 1 * A 5 - A 4 * A 2) / det
    else if i = 3 then -(A 3 * A 8 - A 6 * A 5) / det
    else if i = 4 then (A 0 * A 8 - A 6 * A 2) / det
    else if i = 5 then -(A 0 * A 5 - A 3 * A 2) / det
    else if i = 6 then (A 3 * A 7 - A 6 * A 4) / det
    else if i = 7 then -(A 0 * A 7 - A 6 * A 1) / det
    else (A 0 * A 4 - A 3 * A 1) / det

/-- Modelled from the spec: `kernels::CalcLeftInverse<3,2>` (declared in
`linalg/kernels.hpp`, not among the sources) — the normal-equations left
pseudo-inverse `(JᵀJ)⁻¹Jᵀ` of a 3×2 matrix (spec §4.4 and §4.2). With
`E = ‖J·e₀‖²`, `F = (J·e₀)·(J·e₁)`, `G = ‖J·e₁‖²`, the 2×3 result is stored
column-major: `P(s,t) = out (s + 2*t)`. -/
def CalcLeftInverse32 (A : Nat → K) : Nat → K :=
  let E := A 0 * A 0 + A 1 * A 1 + A 2 * A 2
  let F := A 0 * A 3 + A 1 * A 4 + A 2 * A 5
  let G := A 3 * A 3 + A 4 * A 4 + A 5 * A 5
  let den := E * G - F * F
  fun i =>
    if i = 0 then (G * A 0 - F * A 3) / den
    else if i = 1 then (E * A 3 - F * A 0) / den
    else if i = 2 then (G * A 1 - F * A 4) / den
    else if i = 3 then (E * A 4 - F * A 1) / den
    else if i = 4 then (G * A 2 - F * A 5) / den
    else (E * A 5 - F * A 2) / den

/-- The per-(element, component, point) value array `du[3]` of `Derivatives1D`
after the contraction loop and the optional physical transform, as a function
of the direction index `d` (entries beyond those the code touches stay `0.0`,
matching the initializer `double du[3] = {0.0, 0.0, 0.0}`). -/
def du1D (GRAD_PHYS : Bool) (NE : Nat) (g j x : Nat → K)
    (sdim vdim d1d q1d : Nat) (e c q : Nat) : Nat → K :=
  let du0 : K :=
    (List.range d1d).foldl
      (fun acc d => acc + tab q1d d1d g q d * xin1 d1d vdim NE x d c e) 0
  if GRAD_PHYS then
    if sdim = 1 then
      fun d => if d = 0 then du0 / jac1 q1d sdim NE j q 0 e else 0
    else if sdim = 2 then
      let Jinv := CalcLeftInverse21 (fun i => jac1 q1d sdim NE j q i e)
      fun d => if d = 0 then Jinv 0 * du0 else if d = 1 then Jinv 1 * du0 else 0
    else
      let Jinv := CalcLeftInverse31 (fun i => jac1 q1d sdim NE j q i e)
      fun d =>
        if d = 0 then Jinv 0 * du0 else if d = 1 then Jinv 1 * du0
        else if d = 2 then Jinv 2 * du0 else 0
  else
    fun d => if d = 0 then du0 else 0

/-- Linear offset of output entry (q, c, d, e) of `Derivatives1D`:
`Reshape(y_, q1d, vdim, sdim, NE)` for by-NODES,
`Reshape(y_, vdim, sdim, q1d, NE)` for by-VDIM. -/
def offY1 (L : QVectorLayout) (NE sdim vdim q1d : Nat) (q c d e : Nat) : Nat :=
  match L with
  | .byNODES => flatIdx [q1d, vdim, sdim, NE] [q, c, d, e]
  | .byVDIM => flatIdx [vdim, sdim, q1d, NE] [c, d, q, e]

/-- The ordered list of output writes of one `Derivatives1D` invocation:
loops `e` (the parallel dispatch), `c`, `q`, and the store loop `d < sdim`. -/
def writes1D (L : QVectorLayout) (GRAD_PHYS : Bool) (NE : Nat)
    (g j x : Nat → K) (sdim vdim d1d q1d : Nat) : List (Nat × K) :=
  (tuple4 NE vdim q1d sdim).map fun t =>
    (offY1 L NE sdim vdim q1d t.2.2.1 t.2.1 t.2.2.2 t.1,
      du1D GRAD_PHYS NE g j x sdim vdim d1d q1d t.1 t.2.1 t.2.2.1 t.2.2.2)

/-- `Derivatives1D` (grad.hpp lines 31–93): the final contents of the output
buffer `y` after the kernel runs. -/
def Derivatives1D (L : QVectorLayout) (GRAD_PHYS : Bool) (NE : Nat)
    (g j x y : Nat → K) (sdim vdim d1d q1d : Nat) : Nat → K :=
  runWrites y (writes1D L GRAD_PHYS NE g j x sdim vdim d1d q1d)

end Model

theorem offY1_inj (L : QVectorLayout) {NE sdim vdim q1d : Nat}
    {q c d e q' c' d' e' : Nat}
    (hq : q < q1d) (hc : c < vdim) (hd : d < sdim) (he : e < NE)
    (hq' : q' < q1d) (hc' : c' < vdim) (hd' : d' < sdim) (he' : e' < NE)
    (h : offY1 L NE sdim vdim q1d q c d e = offY1 L NE sdim vdim q1d q' c' d' e') :
    q = q' ∧ c = c' ∧ d = d' ∧ e = e' := by
  cases L with
  | byNODES =>
    rw [offY1, offY1, flatIdx4, flatIdx4] at h
    exact mixed4_inj hq hc hd hq' hc' hd' h
  | byVDIM =>
    rw [offY1, offY1, flatIdx4, flatIdx4] at h
    obtain ⟨h1, h2, h3, h4⟩ := mixed4_inj hc hd hq hc' hd' hq' h
    exact ⟨h3, h1, h2, h4⟩

section Lemmas1D

variable {K : Type} [Field K]

theorem nodup_offsets1D (L : QVectorLayout) (GRAD_PHYS : Bool) (NE : Nat)
    (g j x : Nat → K) (sdim vdim d1d q1d : Nat) :
    ((writes1D L GRAD_PHYS NE g j x sdim vdim d1d q1d).map Prod.fst).Nodup := by
  rw [writes1D, List.map_map]
  refine List.Nodup.map_on ?_ (nodup_tuple4 NE vdim q1d sdim)
  intro t ht t' ht' hoff
  obtain ⟨he, hc, hq, hd⟩ := mem_tuple4.mp ht
  obtain ⟨he', hc', hq', hd'⟩ := mem_tuple4.mp ht'
  obtain ⟨h1, h2, h3, h4⟩ := offY1_inj L hq hc hd he hq' hc' hd' he' hoff
  obtain ⟨e, c, q, d⟩ := t
  obtain ⟨e', c', q', d'⟩ := t'
  simp_all

/-- Read-back: the final output buffer holds `du[d]` at the offset of
(q, c, d, e), whatever the buffer held before. -/
theorem Derivatives1D_read (L : QVectorLayout) (GRAD_PHYS : Bool) {NE : Nat}
    (g j x y : Nat → K) {sdim vdim d1d q1d : Nat} {q c d e : Nat}
    (hq : q < q1d) (hc : c < vdim) (hd : d < sdim) (he : e < NE) :
    Derivatives1D L GRAD_PHYS NE g j x y sdim vdim d1d q1d
        (offY1 L NE sdim vdim q1d q c d e) =
      du1D GRAD_PHYS NE g j x sdim vdim d1d q1d e c q d := by
  refine runWrites_mem_nodup (nodup_offsets1D L GRAD_PHYS NE g j x sdim vdim d1d q1d) ?_ y
  rw [writes1D]
  refine List.mem_map.mpr ⟨(e, c, q, d), mem_tuple4.mpr ?_, rfl⟩
  exact ⟨he, hc, hq, hd⟩

/-- Frame: offsets that are not within the declared output shape are
untouched. -/
theorem Derivatives1D_frame (L : QVectorLayout) (GRAD_PHYS : Bool) {NE : Nat}
    (g j x y : Nat → K) {sdim vdim d1d q1d : Nat} {o : Nat}
    (ho : ∀ q c d e, q < q1d → c < vdim → d < sdim → e < NE →
      o ≠ offY1 L NE sdim vdim q1d q c d e) :
    Derivatives1D L GRAD_PHYS NE g j x y sdim vdim d1d q1d o = y o := by
  refine runWrites_of_forall_ne ?_ y
  intro p hp
  rw [writes1D] at hp
  obtain ⟨t, ht, rfl⟩ := List.mem_map.mp hp
  obtain ⟨he, hc, hq, hd⟩ := mem_tuple4.mp ht
  exact fun hpo => ho _ _ _ _ hq hc hd he hpo.symm

end Lemmas1D

section Model2D

variable {K : Type} [Field K]

/-- Stage 1 of `Derivatives2D`: the shared tiles `(DQ0, DQ1)(dy, qx)` for
component `c` of element `e` — one loop over `dx` accumulating
`input*B(dx,qx)` and `input*G(dx,qx)` simultaneously. -/
def DQ2D (NE : Nat) (b g x : Nat → K) (vdim d1d q1d : Nat)
    (e c dy qx : Nat) : K × K :=
  (List.range d1d).foldl
    (fun acc dx =>
      let input := xin2 d1d vdim NE x dx dy c e
      (acc.1 + input * tab q1d d1d b qx dx, acc.2 + input * tab q1d d1d g qx dx))
    (0, 0)

/-- Stage 2 of `Derivatives2D`: the reference-space pair
`(du[0], du[1])(qx, qy)` — a loop over `dy` accumulating
`DQ1(dy,qx)*B(dy,qy)` and `DQ0(dy,qx)*G(dy,qy)`. -/
def du2Dref (NE : Nat) (b g x : Nat → K) (vdim d1d q1d : Nat)
    (e c qx qy : Nat) : K × K :=
  (List.range d1d).foldl
    (fun acc dy =>
      (acc.1 + (DQ2D NE b g x vdim d1d q1d e c dy qx).2 * tab q1d d1d b qy dy,
        acc.2 + (DQ2D NE b g x vdim d1d q1d e c dy qx).1 * tab q1d d1d g qy dy))
    (0, 0)

/-- The value array `du[3]` of `Derivatives2D` at (e, c, qx, qy) after the
optional physical transform (entries the code never touches stay `0.0`). -/
def du2D (GRAD_PHYS : Bool) (NE : Nat) (b g j x : Nat → K)
    (sdim vdim d1d q1d : Nat) (e c qx qy : Nat) : Nat → K :=
  let SDIM := if GRAD_PHYS then sdim else 2
  let r := du2Dref NE b g x vdim d1d q1d e c qx qy
  if GRAD_PHYS then
    if SDIM = 2 then
      let Jloc : Nat → K := fun i =>
        if i = 0 then jac2 q1d SDIM NE j qx qy 0 0 e
        else if i = 1 then jac2 q1d SDIM NE j qx qy 1 0 e
        else if i = 2 then jac2 q1d SDIM NE j qx qy 0 1 e
        else jac2 q1d SDIM NE j qx qy 1 1 e
      let Jinv := CalcInverse2 Jloc
      fun d =>
        if d = 0 then Jinv 0 * r.1 + Jinv 1 * r.2
        else if d = 1 then Jinv 2 * r.1 + Jinv 3 * r.2
        else 0
    else
      let Jloc : Nat → K := fun i =>
        if i = 0 then jac2 q1d SDIM NE j qx qy 0 0 e
        else if i = 1 then jac2 q1d SDIM NE j qx qy 1 0 e
        else if i = 2 then jac2 q1d SDIM NE j qx qy 2 0 e
        else if i = 3 then jac2 q1d SDIM NE j qx qy 0 1 e
        else if i = 4 then jac2 q1d SDIM NE j qx qy 1 1 e
        else jac2 q1d SDIM NE j qx qy 2 1 e
      let Jinv := CalcLeftInverse32 Jloc
      fun d =>
        if d = 0 then Jinv 0 * r.1 + Jinv 1 * r.2
        else if d = 1 then Jinv 2 * r.1 + Jinv 3 * r.2
        else if d = 2 then Jinv 4 * r.1 + Jinv 5 * r.2
        else 0
  else
    fun d => if d = 0 then r.1 else if d = 1 then r.2 else 0

/-- Linear offset of output entry (qx, qy, c, d, e) of `Derivatives2D`:
`Reshape(y_, Q1D, Q1D, VDIM, SDIM, NE)` for by-NODES,
`Reshape(y_, VDIM, SDIM, Q1D, Q1D, NE)` for by-VDIM. -/
def offY2 (L : QVectorLayout) (NE SDIM vdim q1d : Nat)
    (qx qy c d e : Nat) : Nat :=
  match L with
  | .byNODES => flatIdx [q1d, q1d, vdim, SDIM, NE] [qx, qy, c, d, e]
  | .byVDIM => flatIdx [vdim, SDIM, q1d, q1d, NE] [c, d, qx, qy, e]

/-- The ordered list of output writes of one `Derivatives2D` invocation.
`SDIM = GRAD_PHYS ? sdim : 2` exactly as in the source; the store loop runs
`d < SDIM`. -/
def writes2D (L : QVectorLayout) (GRAD_PHYS : Bool) (NE : Nat)
    (b g j x : Nat → K) (sdim vdim d1d q1d : Nat) : List (Nat × K) :=
  let SDIM := if GRAD_PHYS then sdim else 2
  (tuple5 NE vdim q1d q1d SDIM).map fun t =>
    (offY2 L NE SDIM vdim q1d t.2.2.2.1 t.2.2.1 t.2.1 t.2.2.2.2 t.1,
      du2D GRAD_PHYS NE b g j x sdim vdim d1d q1d
        t.1 t.2.1 t.2.2.2.1 t.2.2.1 t.2.2.2.2)

/-- `Derivatives2D` (grad.hpp lines 99–224), runtime-sized variant: the final
contents of the output buffer `y` after the kernel runs. -/
def Derivatives2D (L : QVectorLayout) (GRAD_PHYS : Bool) (NE : Nat)
    (b g j x y : Nat → K) (sdim vdim d1d q1d : Nat) : Nat → K :=
  runWrites y (writes2D L GRAD_PHYS NE b g j x sdim vdim d1d q1d)

end Model2D

theorem offY2_inj (L : QVectorLayout) {NE SDIM vdim q1d : Nat}
    {qx qy c d e qx' qy' c' d' e' : Nat}
    (hx : qx < q1d) (hy : qy < q1d) (hc : c < vdim) (hd : d < SDIM)
    (hx' : qx' < q1d) (hy' : qy' < q1d) (hc' : c' < vdim) (hd' : d' < SDIM)
    (h : offY2 L NE SDIM vdim q1d qx qy c d e =
      offY2 L NE SDIM vdim q1d qx' qy' c' d' e') :
    qx = qx' ∧ qy = qy' ∧ c = c' ∧ d = d' ∧ e = e' := by
  cases L with
  | byNODES =>
    rw [offY2, offY2, flatIdx5, flatIdx5] at h
    exact mixed5_inj hx hy hc hd hx' hy' hc' hd' h
  | byVDIM =>
    rw [offY2, offY2, flatIdx5, flatIdx5] at h
    obtain ⟨h1, h2, h3, h4, h5⟩ := mixed5_inj hc hd hx hy hc' hd' hx' hy' h
    exact ⟨h3, h4, h1, h2, h5⟩

section Lemmas2D

variable {K : Type} [Field K]

theorem nodup_offsets2D (L : QVectorLayout) (GRAD_PHYS : Bool) (NE : Nat)
    (b g j x : Nat → K) (sdim vdim d1d q1d : Nat) :
    ((writes2D L GRAD_PHYS NE b g j x sdim vdim d1d q1d).map Prod.fst).Nodup := by
  rw [writes2D, List.map_map]
  refine List.Nodup.map_on ?_
    (nodup_tuple5 NE vdim q1d q1d (if GRAD_PHYS then sdim else 2))
  intro t ht t' ht' hoff
  obtain ⟨he, hc, hqy, hqx, hd⟩ := mem_tuple5.mp ht
  obtain ⟨he', hc', hqy', hqx', hd'⟩ := mem_tuple5.mp ht'
  obtain ⟨h1, h2, h3, h4, h5⟩ := offY2_inj L hqx hqy hc hd hqx' hqy' hc' hd' hoff
  obtain ⟨e, c, qy, qx, d⟩ := t
  obtain ⟨e', c', qy', qx', d'⟩ := t'
  simp_all

/-- Read-back for `Derivatives2D` (`SDIM` abbreviates the source's
`GRAD_PHYS ? sdim : 2`). -/
theorem Derivatives2D_read (L : QVectorLayout) (GRAD_PHYS : Bool) {NE : Nat}
    (b g j x y : Nat → K) {sdim vdim d1d q1d : Nat} {qx qy c d e : Nat}
    (hx : qx < q1d) (hy : qy < q1d) (hc : c < vdim)
    (hd : d < (if GRAD_PHYS then sdim else 2)) (he : e < NE) :
    Derivatives2D L GRAD_PHYS NE b g j x y sdim vdim d1d q1d
        (offY2 L NE (if GRAD_PHYS then sdim else 2) vdim q1d qx qy c d e) =
      du2D GRAD_PHYS NE b g j x sdim vdim d1d q1d e c qx qy d := by
  refine runWrites_mem_nodup
    (nodup_offsets2D L GRAD_PHYS NE b g j x sdim vdim d1d q1d) ?_ y
  rw [writes2D]
  refine List.mem_map.mpr ⟨(e, c, qy, qx, d), mem_tuple5.mpr ?_, rfl⟩
  exact ⟨he, hc, hy, hx, hd⟩

/-- Frame for `Derivatives2D`: offsets outside the declared output shape are
untouched. -/
theorem Derivatives2D_frame (L : QVectorLayout) (GRAD_PHYS : Bool) {NE : Nat}
    (b g j x y : Nat → K) {sdim vdim d1d q1d : Nat} {o : Nat}
    (ho : ∀ qx qy c d e, qx < q1d → qy < q1d → c < vdim →
      d < (if GRAD_PHYS then sdim else 2) → e < NE →
      o ≠ offY2 L NE (if GRAD_PHYS then sdim else 2) vdim q1d qx qy c d e) :
    Derivatives2D L GRAD_PHYS NE b g j x y sdim vdim d1d q1d o = y o := by
  refine runWrites_of_forall_ne ?_ y
  intro p hp
  rw [writes2D] at hp
  obtain ⟨t, ht, rfl⟩ := List.mem_map.mp hp
  obtain ⟨he, hc, hqy, hqx, hd⟩ := mem_tuple5.mp ht
  exact fun hpo => ho _ _ _ _ _ hqx hqy hc hd he hpo.symm

end Lemmas2D

section Model3D

variable {K : Type} [Field K]

/-- Stage 1 of `Derivatives3D`: the shared tiles `(DDQ0, DDQ1)(dz, dy, qx)`
for component `c` of element `e` — one loop over `dx` accumulating
`input*B(dx,qx)` and `input*G(dx,qx)`. -/
def DDQ3D (NE : Nat) (b g x : Nat → K) (vdim d1d q1d : Nat)
    (e c dz dy qx : Nat) : K × K :=
  (List.range d1d).foldl
    (fun acc dx =>
      let input := xin3 d1d vdim NE x dx dy dz c e
      (acc.1 + input * tab q1d d1d b qx dx, acc.2 + input * tab q1d d1d g qx dx))
    (0, 0)

/-- Stage 2 of `Derivatives3D`: `(DQQ0, DQQ1, DQQ2)(dz, qy, qx)` — a loop
over `dy` accumulating `DDQ1*B(dy,qy)`, `DDQ0*G(dy,qy)`, `DDQ0*B(dy,qy)`. -/
def DQQ3D (NE : Nat) (b g x : Nat → K) (vdim d1d q1d : Nat)
    (e c dz qy qx : Nat) : K × K × K :=
  (List.range d1d).foldl
    (fun acc dy =>
      (acc.1 + (DDQ3D NE b g x vdim d1d q1d e c dz dy qx).2 * tab q1d d1d b qy dy,
        acc.2.1 + (DDQ3D NE b g x vdim d1d q1d e c dz dy qx).1 * tab q1d d1d g qy dy,
        acc.2.2 + (DDQ3D NE b g x vdim d1d q1d e c dz dy qx).1 * tab q1d d1d b qy dy))
    (0, 0, 0)

/-- Stage 3 of `Derivatives3D`: the reference-space triple `(u, v, w)` at
(qx, qy, qz) — a loop over `dz` accumulating `DQQ0*B(dz,qz)`, `DQQ1*B(dz,qz)`,
`DQQ2*G(dz,qz)`. -/
def du3Dref (NE : Nat) (b g x : Nat → K) (vdim d1d q1d : Nat)
    (e c qx qy qz : Nat) : K × K × K :=
  (List.range d1d).foldl
    (fun acc dz =>
      (acc.1 + (DQQ3D NE b g x vdim d1d q1d e c dz qy qx).1 * tab q1d d1d b qz dz,
        acc.2.1 + (DQQ3D NE b g x vdim d1d q1d e c dz qy qx).2.1 * tab q1d d1d b qz dz,
        acc.2.2 + (DQQ3D NE b g x vdim d1d q1d e c dz qy qx).2.2 * tab q1d d1d g qz dz))
    (0, 0, 0)

/-- The three values `(u, v, w)` of `Derivatives3D` at (e, c, qx, qy, qz)
after the optional physical transform, as a function of the direction index.
`Jloc[row + 3*col] = j(qx,qy,qz,row,col,e)` exactly as in the source. -/
def du3D (GRAD_PHYS : Bool) (NE : Nat) (b g j x : Nat → K)
    (vdim d1d q1d : Nat) (e c qx qy qz : Nat) : Nat → K :=
  let r := du3Dref NE b g x vdim d1d q1d e c qx qy qz
  if GRAD_PHYS then
    let Jloc : Nat → K := fun i => jac3 q1d NE j qx qy qz (i % 3) (i / 3) e
    let Jinv := CalcInverse3 Jloc
    fun d =>
      if d = 0 then Jinv 0 * r.1 + Jinv 1 * r.2.1 + Jinv 2 * r.2.2
      else if d = 1 then Jinv 3 * r.1 + Jinv 4 * r.2.1 + Jinv 5 * r.2.2
      else if d = 2 then Jinv 6 * r.1 + Jinv 7 * r.2.1 + Jinv 8 * r.2.2
      else 0
  else
    fun d =>
      if d = 0 then r.1 else if d = 1 then r.2.1 else if d = 2 then r.2.2 else 0

/-- Linear offset of output entry (qx, qy, qz, c, d, e) of `Derivatives3D`:
`Reshape(y_, Q1D, Q1D, Q1D, VDIM, 3, NE)` for by-NODES,
`Reshape(y_, VDIM, 3, Q1D, Q1D, Q1D, NE)` for by-VDIM. -/
def offY3 (L : QVectorLayout) (NE vdim q1d : Nat)
    (qx qy qz c d e : Nat) : Nat :=
  match L with
  | .byNODES => flatIdx [q1d, q1d, q1d, vdim, 3, NE] [qx, qy, qz, c, d, e]
  | .byVDIM => flatIdx [vdim, 3, q1d, q1d, q1d, NE] [c, d, qx, qy, qz, e]

/-- The ordered list of output writes of one `Derivatives3D` invocation.
The store writes the three directions `d = 0, 1, 2` of every quadrature
point unconditionally. -/
def writes3D (L : QVectorLayout) (GRAD_PHYS : Bool) (NE : Nat)
    (b g j x : Nat → K) (vdim d1d q1d : Nat) : List (Nat × K) :=
  (tuple6 NE vdim q1d q1d q1d 3).map fun t =>
    (offY3 L NE vdim q1d t.2.2.2.2.1 t.2.2.2.1 t.2.2.1 t.2.1 t.2.2.2.2.2 t.1,
      du3D GRAD_PHYS NE b g j x vdim d1d q1d
        t.1 t.2.1 t.2.2.2.2.1 t.2.2.2.1 t.2.2.1 t.2.2.2.2.2)

/-- `Derivatives3D` (grad.hpp lines 230–368), runtime-sized variant: the
final contents of the output buffer `y` after the kernel runs. -/
def Derivatives3D (L : QVectorLayout) (GRAD_PHYS : Bool) (NE : Nat)
    (b g j x y : Nat → K) (vdim d1d q1d : Nat) : Nat → K :=
  runWrites y (writes3D L GRAD_PHYS NE b g j x vdim d1d q1d)

end Model3D

theorem offY3_inj (L : QVectorLayout) {NE vdim q1d : Nat}
    {qx qy qz c d e qx' qy' qz' c' d' e' : Nat}
    (hx : qx < q1d) (hy : qy < q1d) (hz : qz < q1d) (hc : c < vdim) (hd : d < 3)
    (hx' : qx' < q1d) (hy' : qy' < q1d) (hz' : qz' < q1d) (hc' : c' < vdim)
    (hd' : d' < 3)
    (h : offY3 L NE vdim q1d qx qy qz c d e =
      offY3 L NE vdim q1d qx' qy' qz' c' d' e') :
    qx = qx' ∧ qy = qy' ∧ qz = qz' ∧ c = c' ∧ d = d' ∧ e = e' := by
  cases L with
  | byNODES =>
    rw [offY3, offY3, flatIdx6, flatIdx6] at h
    exact mixed6_inj hx hy hz hc hd hx' hy' hz' hc' hd' h
  | byVDIM =>
    rw [offY3, offY3, flatIdx6, flatIdx6] at h
    obtain ⟨h1, h2, h3, h4, h5, h6⟩ := mixed6_inj hc hd hx hy hz hc' hd' hx' hy' hz' h
    exact ⟨h3, h4, h5, h1, h2, h6⟩

section Lemmas3D

variable {K : Type} [Field K]

theorem nodup_offsets3D (L : QVectorLayout) (GRAD_PHYS : Bool) (NE : Nat)
    (b g j x : Nat → K) (vdim d1d q1d : Nat) :
    ((writes3D L GRAD_PHYS NE b g j x vdim d1d q1d).map Prod.fst).Nodup := by
  rw [writes3D, List.map_map]
  refine List.Nodup.map_on ?_ (nodup_tuple6 NE vdim q1d q1d q1d 3)
  intro t ht t' ht' hoff
  obtain ⟨he, hc, hqz, hqy, hqx, hd⟩ := mem_tuple6.mp ht
  obtain ⟨he', hc', hqz', hqy', hqx', hd'⟩ := mem_tuple6.mp ht'
  obtain ⟨h1, h2, h3, h4, h5, h6⟩ :=
    offY3_inj L hqx hqy hqz hc hd hqx' hqy' hqz' hc' hd' hoff
  obtain ⟨e, c, qz, qy, qx, d⟩ := t
  obtain ⟨e', c', qz', qy', qx', d'⟩ := t'
  simp_all

/-- Read-back for `Derivatives3D`. -/
theorem Derivatives3D_read (L : QVectorLayout) (GRAD_PHYS : Bool) {NE : Nat}
    (b g j x y : Nat → K) {vdim d1d q1d : Nat} {qx qy qz c d e : Nat}
    (hx : qx < q1d) (hy : qy < q1d) (hz : qz < q1d) (hc : c < vdim)
    (hd : d < 3) (he : e < NE) :
    Derivatives3D L GRAD_PHYS NE b g j x y vdim d1d q1d
        (offY3 L NE vdim q1d qx qy qz c d e) =
      du3D GRAD_PHYS NE b g j x vdim d1d q1d e c qx qy qz d := by
  refine runWrites_mem_nodup
    (nodup_offsets3D L GRAD_PHYS NE b g j x vdim d1d q1d) ?_ y
  rw [writes3D]
  refine List.mem_map.mpr ⟨(e, c, qz, qy, qx, d), mem_tuple6.mpr ?_, rfl⟩
  exact ⟨he, hc, hz, hy, hx, hd⟩

/-- Frame for `Derivatives3D`: offsets outside the declared output shape are
untouched. -/
theorem Derivatives3D_frame (L : QVectorLayout) (GRAD_PHYS : Bool) {NE : Nat}
    (b g j x y : Nat → K) {vdim d1d q1d : Nat} {o : Nat}
    (ho : ∀ qx qy qz c d e, qx < q1d → qy < q1d → qz < q1d → c < vdim →
      d < 3 → e < NE → o ≠ offY3 L NE vdim q1d qx qy qz c d e) :
    Derivatives3D L GRAD_PHYS NE b g j x y vdim d1d q1d o = y o := by
  refine runWrites_of_forall_ne ?_ y
  intro p hp
  rw [writes3D] at hp
  obtain ⟨t, ht, rfl⟩ := List.mem_map.mp hp
  obtain ⟨he, hc, hqz, hqy, hqx, hd⟩ := mem_tuple6.mp ht
  exact fun hpo => ho _ _ _ _ _ _ hqx hqy hqz hc hd he hpo.symm

end Lemmas3D

section Sums

variable {K : Type} [Field K]

/-- The 1D contraction loop is the dot product of row `q` of the derivative
table with the nodal coefficients of (e, c). -/
theorem du1D_loop_eq_sum (NE : Nat) (g x : Nat → K) (vdim d1d q1d e c q : Nat) :
    (List.range d1d).foldl
        (fun acc d => acc + tab q1d d1d g q d * xin1 d1d vdim NE x d c e) 0 =
      ∑ d ∈ Finset.range d1d, tab q1d d1d g q d * xin1 d1d vdim NE x d c e := by
  rw [foldl_add_eq_sum, zero_add]

/-- Reference-space branch of `du1D`: entry 0 is the dot product, all other
entries are zero. -/
theorem du1D_ref (NE : Nat) (g j x : Nat → K) (sdim vdim d1d q1d e c q d : Nat) :
    du1D false NE g j x sdim vdim d1d q1d e c q d =
      if d = 0 then
        ∑ dd ∈ Finset.range d1d, tab q1d d1d g q dd * xin1 d1d vdim NE x dd c e
      else 0 := by
  rw [du1D]
  simp only [Bool.false_eq_true, if_false]
  rw [du1D_loop_eq_sum]

/-- Physical branch of `du1D` at `sdim = 1`: the dot product divided by the
scalar Jacobian entry. -/
theorem du1D_phys1 (NE : Nat) (g j x : Nat → K) (vdim d1d q1d e c q : Nat) :
    du1D true NE g j x 1 vdim d1d q1d e c q 0 =
      (∑ dd ∈ Finset.range d1d, tab q1d d1d g q dd * xin1 d1d vdim NE x dd c e) /
        jac1 q1d 1 NE j q 0 e := by
  rw [du1D]
  simp only [if_true, if_pos rfl]
  rw [du1D_loop_eq_sum]

/-- Stage 1 of the 2D kernel as a pair of sums. -/
theorem DQ2D_eq (NE : Nat) (b g x : Nat → K) (vdim d1d q1d e c dy qx : Nat) :
    DQ2D NE b g x vdim d1d q1d e c dy qx =
      (∑ dx ∈ Finset.range d1d,
          xin2 d1d vdim NE x dx dy c e * tab q1d d1d b qx dx,
        ∑ dx ∈ Finset.range d1d,
          xin2 d1d vdim NE x dx dy c e * tab q1d d1d g qx dx) :=
  foldl_pair_eq_sum _ _ d1d

/-- Stage 2 of the 2D kernel as a pair of sums over the stage-1 tiles. -/
theorem du2Dref_eq (NE : Nat) (b g x : Nat → K) (vdim d1d q1d e c qx qy : Nat) :
    du2Dref NE b g x vdim d1d q1d e c qx qy =
      (∑ dy ∈ Finset.range d1d,
          (DQ2D NE b g x vdim d1d q1d e c dy qx).2 * tab q1d d1d b qy dy,
        ∑ dy ∈ Finset.range d1d,
          (DQ2D NE b g x vdim d1d q1d e c dy qx).1 * tab q1d d1d g qy dy) :=
  foldl_pair_eq_sum _ _ d1d

/-- Direct (non-factorized) evaluation of the 2D reference gradient, exactly
as the spec states it: `du0(qx,qy) = Σ_{dx,dy} G(dx,qx)·B(dy,qy)·X(dx,dy)`
and `du1(qx,qy) = Σ_{dx,dy} B(dx,qx)·G(dy,qy)·X(dx,dy)`. -/
def directGrad2D (NE : Nat) (b g x : Nat → K) (vdim d1d q1d : Nat)
    (e c qx qy : Nat) : K × K :=
  (∑ dx ∈ Finset.range d1d, ∑ dy ∈ Finset.range d1d,
      tab q1d d1d g qx dx * tab q1d d1d b qy dy * xin2 d1d vdim NE x dx dy c e,
    ∑ dx ∈ Finset.range d1d, ∑ dy ∈ Finset.range d1d,
      tab q1d d1d b qx dx * tab q1d d1d g qy dy * xin2 d1d vdim NE x dx dy c e)

/-- The sum-factorized 2D reference gradient coincides with the direct
tensor contraction. -/
theorem du2Dref_eq_direct (NE : Nat) (b g x : Nat → K)
    (vdim d1d q1d e c qx qy : Nat) :
    du2Dref NE b g x vdim d1d q1d e c qx qy =
      directGrad2D NE b g x vdim d1d q1d e c qx qy := by
  rw [du2Dref_eq, directGrad2D]
  refine Prod.ext ?_ ?_ <;> simp only [DQ2D_eq, Finset.sum_mul]
  · rw [Finset.sum_comm]
    exact Finset.sum_congr rfl fun dx _ => Finset.sum_congr rfl fun dy _ => by ring
  · rw [Finset.sum_comm]
    exact Finset.sum_congr rfl fun dx _ => Finset.sum_congr rfl fun dy _ => by ring

/-- Stage 1 of the 3D kernel as a pair of sums. -/
theorem DDQ3D_eq (NE : Nat) (b g x : Nat → K) (vdim d1d q1d e c dz dy qx : Nat) :
    DDQ3D NE b g x vdim d1d q1d e c dz dy qx =
      (∑ dx ∈ Finset.range d1d,
          xin3 d1d vdim NE x dx dy dz c e * tab q1d d1d b qx dx,
        ∑ dx ∈ Finset.range d1d,
          xin3 d1d vdim NE x dx dy dz c e * tab q1d d1d g qx dx) :=
  foldl_pair_eq_sum _ _ d1d

/-- Stage 2 of the 3D kernel as a triple of sums over the stage-1 tiles. -/
theorem DQQ3D_eq (NE : Nat) (b g x : Nat → K) (vdim d1d q1d e c dz qy qx : Nat) :
    DQQ3D NE b g x vdim d1d q1d e c dz qy qx =
      (∑ dy ∈ Finset.range d1d,
          (DDQ3D NE b g x vdim d1d q1d e c dz dy qx).2 * tab q1d d1d b qy dy,
        ∑ dy ∈ Finset.range d1d,
          (DDQ3D NE b g x vdim d1d q1d e c dz dy qx).1 * tab q1d d1d g qy dy,
        ∑ dy ∈ Finset.range d1d,
          (DDQ3D NE b g x vdim d1d q1d e c dz dy qx).1 * tab q1d d1d b qy dy) :=
  foldl_triple_eq_sum _ _ _ d1d

/-- Stage 3 of the 3D kernel as a triple of sums over the stage-2 tiles. -/
theorem du3Dref_eq (NE : Nat) (b g x : Nat → K) (vdim d1d q1d e c qx qy qz : Nat) :
    du3Dref NE b g x vdim d1d q1d e c qx qy qz =
      (∑ dz ∈ Finset.range d1d,
          (DQQ3D NE b g x vdim d1d q1d e c dz qy qx).1 * tab q1d d1d b qz dz,
        ∑ dz ∈ Finset.range d1d,
          (DQQ3D NE b g x vdim d1d q1d e c dz qy qx).2.1 * tab q1d d1d b qz dz,
        ∑ dz ∈ Finset.range d1d,
          (DQQ3D NE b g x vdim d1d q1d e c dz qy qx).2.2 * tab q1d d1d g qz dz) :=
  foldl_triple_eq_sum _ _ _ d1d

/-- Direct (non-factorized) evaluation of the 3D reference gradient: the
analogous triple sums, with `G` on the differentiated axis and `B` on the
other two. -/
def directGrad3D (NE : Nat) (b g x : Nat → K) (vdim d1d q1d : Nat)
    (e c qx qy qz : Nat) : K × K × K :=
  (∑ dx ∈ Finset.range d1d, ∑ dy ∈ Finset.range d1d, ∑ dz ∈ Finset.range d1d,
      tab q1d d1d g qx dx * tab q1d d1d b qy dy * tab q1d d1d b qz dz *
        xin3 d1d vdim NE x dx dy dz c e,
    ∑ dx ∈ Finset.range d1d, ∑ dy ∈ Finset.range d1d, ∑ dz ∈ Finset.range d1d,
      tab q1d d1d b qx dx * tab q1d d1d g qy dy * tab q1d d1d b qz dz *
        xin3 d1d vdim NE x dx dy dz c e,
    ∑ dx ∈ Finset.range d1d, ∑ dy ∈ Finset.range d1d, ∑ dz ∈ Finset.range d1d,
      tab q1d d1d b qx dx * tab q1d d1d b qy dy * tab q1d d1d g qz dz *
        xin3 d1d vdim NE x dx dy dz c e)

theorem triple_sum_swap (f : Nat → Nat → Nat → K) (n : Nat) :
    ∑ dz ∈ Finset.range n, ∑ dy ∈ Finset.range n, ∑ dx ∈ Finset.range n,
        f dx dy dz =
      ∑ dx ∈ Finset.range n, ∑ dy ∈ Finset.range n, ∑ dz ∈ Finset.range n,
        f dx dy dz := by
  calc ∑ dz ∈ Finset.range n, ∑ dy ∈ Finset.range n, ∑ dx ∈ Finset.range n,
          f dx dy dz
      = ∑ dy ∈ Finset.range n, ∑ dz ∈ Finset.range n, ∑ dx ∈ Finset.range n,
          f dx dy dz := Finset.sum_comm
    _ = ∑ dy ∈ Finset.range n, ∑ dx ∈ Finset.range n, ∑ dz ∈ Finset.range n,
          f dx dy dz := Finset.sum_congr rfl fun _ _ => Finset.sum_comm
    _ = ∑ dx ∈ Finset.range n, ∑ dy ∈ Finset.range n, ∑ dz ∈ Finset.range n,
          f dx dy dz := Finset.sum_comm

/-- The sum-factorized 3D reference gradient coincides with the direct
tensor contraction. -/
theorem du3Dref_eq_direct (NE : Nat) (b g x : Nat → K)
    (vdim d1d q1d e c qx qy qz : Nat) :
    du3Dref NE b g x vdim d1d q1d e c qx qy qz =
      directGrad3D NE b g x vdim d1d q1d e c qx qy qz := by
  rw [du3Dref_eq, directGrad3D]
  refine Prod.ext ?_ (Prod.ext ?_ ?_) <;>
    simp only [DQQ3D_eq, DDQ3D_eq, Finset.sum_mul] <;>
    rw [← triple_sum_swap] <;>
    exact Finset.sum_congr rfl fun dz _ => Finset.sum_congr rfl fun dy _ =>
      Finset.sum_congr rfl fun dx _ => by ring

end Sums

section Specializations

variable {K : Type} [Field K]

/-- With the physical transform off, `du2D` is the reference pair. -/
theorem du2D_false (NE : Nat) (b g j x : Nat → K)
    (sdim vdim d1d q1d e c qx qy d : Nat) :
    du2D false NE b g j x sdim vdim d1d q1d e c qx qy d =
      if d = 0 then (du2Dref NE b g x vdim d1d q1d e c qx qy).1
      else if d = 1 then (du2Dref NE b g x vdim d1d q1d e c qx qy).2
      else 0 := rfl

/-- With the physical transform off, `du3D` is the reference triple. -/
theorem du3D_false (NE : Nat) (b g j x : Nat → K)
    (vdim d1d q1d e c qx qy qz d : Nat) :
    du3D false NE b g j x vdim d1d q1d e c qx qy qz d =
      if d = 0 then (du3Dref NE b g x vdim d1d q1d e c qx qy qz).1
      else if d = 1 then (du3Dref NE b g x vdim d1d q1d e c qx qy qz).2.1
      else if d = 2 then (du3Dref NE b g x vdim d1d q1d e c qx qy qz).2.2
      else 0 := rfl

/-- `Derivatives2D_read` specialized to `GRAD_PHYS = false` (`SDIM = 2`). -/
theorem Derivatives2D_read_off (L : QVectorLayout) {NE : Nat}
    (b g j x y : Nat → K) {sdim vdim d1d q1d : Nat} {qx qy c d e : Nat}
    (hx : qx < q1d) (hy : qy < q1d) (hc : c < vdim) (hd : d < 2) (he : e < NE) :
    Derivatives2D L false NE b g j x y sdim vdim d1d q1d
        (offY2 L NE 2 vdim q1d qx qy c d e) =
      du2D false NE b g j x sdim vdim d1d q1d e c qx qy d :=
  Derivatives2D_read L false b g j x y hx hy hc hd he

/-- `Derivatives2D_read` specialized to `GRAD_PHYS = true` (`SDIM = sdim`). -/
theorem Derivatives2D_read_on (L : QVectorLayout) {NE : Nat}
    (b g j x y : Nat → K) {sdim vdim d1d q1d : Nat} {qx qy c d e : Nat}
    (hx : qx < q1d) (hy : qy < q1d) (hc : c < vdim) (hd : d < sdim) (he : e < NE) :
    Derivatives2D L true NE b g j x y sdim vdim d1d q1d
        (offY2 L NE sdim vdim q1d qx qy c d e) =
      du2D true NE b g j x sdim vdim d1d q1d e c qx qy d :=
  Derivatives2D_read L true b g j x y hx hy hc hd he

/-- `Derivatives2D_frame` specialized to `GRAD_PHYS = false`. -/
theorem Derivatives2D_frame_off (L : QVectorLayout) {NE : Nat}
    (b g j x y : Nat → K) {sdim vdim d1d q1d : Nat} {o : Nat}
    (ho : ∀ qx qy c d e, qx < q1d → qy < q1d → c < vdim → d < 2 → e < NE →
      o ≠ offY2 L NE 2 vdim q1d qx qy c d e) :
    Derivatives2D L false NE b g j x y sdim vdim d1d q1d o = y o :=
  Derivatives2D_frame L false b g j x y ho

/-- `Derivatives2D_frame` specialized to `GRAD_PHYS = true`. -/
theorem Derivatives2D_frame_on (L : QVectorLayout) {NE : Nat}
    (b g j x y : Nat → K) {sdim vdim d1d q1d : Nat} {o : Nat}
    (ho : ∀ qx qy c d e, qx < q1d → qy < q1d → c < vdim → d < sdim → e < NE →
      o ≠ offY2 L NE sdim vdim q1d qx qy c d e) :
    Derivatives2D L true NE b g j x y sdim vdim d1d q1d o = y o :=
  Derivatives2D_frame L true b g j x y ho

end Specializations

section Claims

variable {K : Type} [Field K]

/-- Claim C7: with the physical-transform flag off, each kernel's final
output buffer is identical for any two Jacobian buffers — the Jacobian
buffer is never read when the physical transform is not requested. -/
theorem C7_jacobian_not_read_when_phys_off (L : QVectorLayout) (NE : Nat)
    (b g j1 j2 x y : Nat → K) (sdim vdim d1d q1d : Nat) :
    Derivatives1D L false NE g j1 x y sdim vdim d1d q1d =
        Derivatives1D L false NE g j2 x y sdim vdim d1d q1d
    ∧ Derivatives2D L false NE b g j1 x y sdim vdim d1d q1d =
        Derivatives2D L false NE b g j2 x y sdim vdim d1d q1d
    ∧ Derivatives3D L false NE b g j1 x y vdim d1d q1d =
        Derivatives3D L false NE b g j2 x y vdim d1d q1d :=
  ⟨rfl, rfl, rfl⟩

/-- Claim C9: with the physical-transform flag off, `Derivatives2D` ignores
its `sdim` argument: the whole final output buffer for any `sdim` equals the
one for `sdim = 2` (and the output shape used is the `SDIM = 2` one). -/
theorem C9_deriv2D_ignores_sdim_when_phys_off (L : QVectorLayout) (NE : Nat)
    (b g j x y : Nat → K) (sdim vdim d1d q1d : Nat) :
    Derivatives2D L false NE b g j x y sdim vdim d1d q1d =
      Derivatives2D L false NE b g j x y 2 vdim d1d q1d :=
  rfl

/-- Claim C10: in `Derivatives1D` with the physical-transform flag off and
`1 < sdim ≤ 3`, the output entries for derivative directions `1 ≤ d < sdim`
are written and hold exactly zero. -/
theorem C10_deriv1D_higher_directions_zero (L : QVectorLayout) {NE : Nat}
    (g j x y : Nat → K) {sdim vdim d1d q1d : Nat} {q c d e : Nat}
    (hq : q < q1d) (hc : c < vdim) (he : e < NE)
    (hd1 : 1 ≤ d) (hd : d < sdim) (hs : sdim ≤ 3) :
    Derivatives1D L false NE g j x y sdim vdim d1d q1d
        (offY1 L NE sdim vdim q1d q c d e) = 0 := by
  rw [Derivatives1D_read L false g j x y hq hc hd he, du1D_ref]
  rw [if_neg (by omega)]

/-- Witness for C10 at a concrete input: sdim = 2, direction 1 reads zero. -/
theorem C10_witness :
    (0 < 1 ∧ 1 ≤ 1 ∧ 1 < 2 ∧ 2 ≤ 3) ∧
      Derivatives1D (K := ℚ) .byNODES false 1 (fun _ => 3) (fun _ => 7)
          (fun _ => 5) (fun _ => 11) 2 1 1 1 (offY1 .byNODES 1 2 1 1 0 0 1 0) = 0 :=
  ⟨by omega,
    C10_deriv1D_higher_directions_zero .byNODES (fun _ => 3) (fun _ => 7)
      (fun _ => 5) (fun _ => 11) (by omega) (by omega) (by omega) (by omega)
      (by omega) (by omega)⟩

/-- Claim C2: `Derivatives1D` writes, for each (e, c, q), the dot product of
row `q` of the derivative table with the nodal coefficients of (e, c) as the
reference derivative; with the physical flag on and `sdim = 1`, it writes
that dot product divided by the scalar Jacobian entry `j(q,0,e)`. -/
theorem C2_deriv1D_dot_and_jacobian_scale (L : QVectorLayout) {NE : Nat}
    (g j x y : Nat → K) {sdim vdim d1d q1d : Nat} {q c e : Nat}
    (hq : q < q1d) (hc : c < vdim) (he : e < NE) (hs : 0 < sdim) :
    Derivatives1D L false NE g j x y sdim vdim d1d q1d
        (offY1 L NE sdim vdim q1d q c 0 e) =
      (∑ d ∈ Finset.range d1d, tab q1d d1d g q d * xin1 d1d vdim NE x d c e)
    ∧ Derivatives1D L true NE g j x y 1 vdim d1d q1d
        (offY1 L NE 1 vdim q1d q c 0 e) =
      (∑ d ∈ Finset.range d1d, tab q1d d1d g q d * xin1 d1d vdim NE x d c e) /
        jac1 q1d 1 NE j q 0 e := by
  constructor
  · rw [Derivatives1D_read L false g j x y hq hc hs he, du1D_ref, if_pos rfl]
  · rw [Derivatives1D_read L true g j x y hq hc Nat.one_pos he, du1D_phys1]

/-- Witness for C2 at a concrete input: one linear element with nodal values
(0, 1), derivative row (-1, 1), Jacobian entry 2. -/
theorem C2_witness :
    (0 < 2 ∧ 0 < 1) ∧
      (Derivatives1D (K := ℚ) .byNODES false 1
          (fun n => if n = 0 then -1 else 1) (fun _ => 2)
          (fun n => if n = 0 then 0 else 1) (fun _ => 9) 1 1 2 1
          (offY1 .byNODES 1 1 1 1 0 0 0 0) =
        (∑ d ∈ Finset.range 2, tab 1 2 (fun n => if n = 0 then (-1 : ℚ) else 1) 0 d *
          xin1 2 1 1 (fun n => if n = 0 then 0 else 1) d 0 0)
      ∧ Derivatives1D (K := ℚ) .byNODES true 1
          (fun n => if n = 0 then -1 else 1) (fun _ => 2)
          (fun n => if n = 0 then 0 else 1) (fun _ => 9) 1 1 2 1
          (offY1 .byNODES 1 1 1 1 0 0 0 0) =
        (∑ d ∈ Finset.range 2, tab 1 2 (fun n => if n = 0 then (-1 : ℚ) else 1) 0 d *
          xin1 2 1 1 (fun n => if n = 0 then 0 else 1) d 0 0) /
          jac1 1 1 1 (fun _ => 2) 0 0 0) :=
  ⟨⟨by omega, by omega⟩,
    C2_deriv1D_dot_and_jacobian_scale .byNODES
      (fun n => if n = 0 then -1 else 1) (fun _ => 2)
      (fun n => if n = 0 then 0 else 1) (fun _ => 9)
      (by omega) (by omega) (by omega) (by omega)⟩

/-- Claim C1: with the physical-transform flag off, the sum-factorized
kernels `Derivatives2D` and `Derivatives3D` write, at every element,
quadrature point, vector component and derivative direction, exactly the
direct (non-factorized) tensor-contraction value of the reference gradient. -/
theorem C1_sum_factorization_equals_direct (L : QVectorLayout) {NE : Nat}
    (b g j x y : Nat → K) (sdim : Nat) {vdim d1d q1d : Nat} (qx qy qz c e : Nat)
    (hx : qx < q1d) (hy : qy < q1d) (hz : qz < q1d) (hc : c < vdim) (he : e < NE) :
    Derivatives2D L false NE b g j x y sdim vdim d1d q1d
        (offY2 L NE 2 vdim q1d qx qy c 0 e) =
      (directGrad2D NE b g x vdim d1d q1d e c qx qy).1
    ∧ Derivatives2D L false NE b g j x y sdim vdim d1d q1d
        (offY2 L NE 2 vdim q1d qx qy c 1 e) =
      (directGrad2D NE b g x vdim d1d q1d e c qx qy).2
    ∧ Derivatives3D L false NE b g j x y vdim d1d q1d
        (offY3 L NE vdim q1d qx qy qz c 0 e) =
      (directGrad3D NE b g x vdim d1d q1d e c qx qy qz).1
    ∧ Derivatives3D L false NE b g j x y vdim d1d q1d
        (offY3 L NE vdim q1d qx qy qz c 1 e) =
      (directGrad3D NE b g x vdim d1d q1d e c qx qy qz).2.1
    ∧ Derivatives3D L false NE b g j x y vdim d1d q1d
        (offY3 L NE vdim q1d qx qy qz c 2 e) =
      (directGrad3D NE b g x vdim d1d q1d e c qx qy qz).2.2 := by
  refine ⟨?_, ?_, ?_, ?_, ?_⟩
  · rw [Derivatives2D_read_off L b g j x y hx hy hc (by omega) he, du2D_false,
      if_pos rfl, du2Dref_eq_direct]
  · rw [Derivatives2D_read_off L b g j x y hx hy hc (by omega) he, du2D_false,
      if_neg (by omega), if_pos rfl, du2Dref_eq_direct]
  · rw [Derivatives3D_read L false b g j x y hx hy hz hc (by omega) he,
      du3D_false, if_pos rfl, du3Dref_eq_direct]
  · rw [Derivatives3D_read L false b g j x y hx hy hz hc (by omega) he,
      du3D_false, if_neg (by omega), if_pos rfl, du3Dref_eq_direct]
  · rw [Derivatives3D_read L false b g j x y hx hy hz hc (by omega) he,
      du3D_false, if_neg (by omega), if_neg (by omega), if_pos rfl,
      du3Dref_eq_direct]

/-- Witness for C1 at a concrete input. -/
theorem C1_witness :
    0 < 1 ∧
      Derivatives2D (K := ℚ) .byNODES false 1 (fun _ => 2) (fun _ => 3)
          (fun _ => 0) (fun _ => 5) (fun _ => 1) 2 1 1 1
          (offY2 .byNODES 1 2 1 1 0 0 0 0 0) =
        (directGrad2D (K := ℚ) 1 (fun _ => 2) (fun _ => 3) (fun _ => 5)
          1 1 1 0 0 0 0).1 :=
  ⟨Nat.one_pos,
    (C1_sum_factorization_equals_direct .byNODES (fun _ => 2) (fun _ => 3)
      (fun _ => 0) (fun _ => 5) (fun _ => 1) 2 0 0 0 0 0 (by omega) (by omega)
      (by omega) (by omega) (by omega)).1⟩

/-- Claim C6: for each kernel, with identical inputs and any initial output
buffers, the by-NODES output at (q-indices, c, d, e) equals the by-VDIM
output at (c, d, q-indices, e). -/
theorem C6_layout_permutation (GRAD_PHYS : Bool) {NE : Nat}
    (b g j x y1 y2 : Nat → K) (sdim : Nat) {vdim d1d q1d : Nat}
    (q qx qy qz c e : Nat)
    (hq : q < q1d) (hx : qx < q1d) (hy : qy < q1d) (hz : qz < q1d)
    (hc : c < vdim) (he : e < NE) :
    (∀ d, d < sdim →
      Derivatives1D .byNODES GRAD_PHYS NE g j x y1 sdim vdim d1d q1d
          (offY1 .byNODES NE sdim vdim q1d q c d e) =
        Derivatives1D .byVDIM GRAD_PHYS NE g j x y2 sdim vdim d1d q1d
          (offY1 .byVDIM NE sdim vdim q1d q c d e))
    ∧ (∀ d, d < (if GRAD_PHYS then sdim else 2) →
      Derivatives2D .byNODES GRAD_PHYS NE b g j x y1 sdim vdim d1d q1d
          (offY2 .byNODES NE (if GRAD_PHYS then sdim else 2) vdim q1d qx qy c d e) =
        Derivatives2D .byVDIM GRAD_PHYS NE b g j x y2 sdim vdim d1d q1d
          (offY2 .byVDIM NE (if GRAD_PHYS then sdim else 2) vdim q1d qx qy c d e))
    ∧ (∀ d, d < 3 →
      Derivatives3D .byNODES GRAD_PHYS NE b g j x y1 vdim d1d q1d
          (offY3 .byNODES NE vdim q1d qx qy qz c d e) =
        Derivatives3D .byVDIM GRAD_PHYS NE b g j x y2 vdim d1d q1d
          (offY3 .byVDIM NE vdim q1d qx qy qz c d e)) := by
  refine ⟨fun d hd => ?_, fun d hd => ?_, fun d hd => ?_⟩
  · rw [Derivatives1D_read .byNODES GRAD_PHYS g j x y1 hq hc hd he,
      Derivatives1D_read .byVDIM GRAD_PHYS g j x y2 hq hc hd he]
  · rw [Derivatives2D_read .byNODES GRAD_PHYS b g j x y1 hx hy hc hd he,
      Derivatives2D_read .byVDIM GRAD_PHYS b g j x y2 hx hy hc hd he]
  · rw [Derivatives3D_read .byNODES GRAD_PHYS b g j x y1 hx hy hz hc hd he,
      Derivatives3D_read .byVDIM GRAD_PHYS b g j x y2 hx hy hz hc hd he]

/-- Witness for C6 at a concrete input. -/
theorem C6_witness :
    0 < 1 ∧
      Derivatives1D (K := ℚ) .byNODES false 1 (fun _ => 3) (fun _ => 7)
          (fun _ => 5) (fun _ => 11) 1 1 1 1 (offY1 .byNODES 1 1 1 1 0 0 0 0) =
        Derivatives1D (K := ℚ) .byVDIM false 1 (fun _ => 3) (fun _ => 7)
          (fun _ => 5) (fun _ => 13) 1 1 1 1 (offY1 .byVDIM 1 1 1 1 0 0 0 0) :=
  ⟨Nat.one_pos,
    (C6_layout_permutation false (fun _ => 2) (fun _ => 3) (fun _ => 7)
        (fun _ => 5) (fun _ => 11) (fun _ => 13) 1 0 0 0 0 0 0 (by omega)
        (by omega) (by omega) (by omega) (by omega) (by omega)).1 0 (by omega)⟩

/-- Claim C8: each kernel assigns every entry of its declared output shape a
value that is a function of the inputs alone (any prior buffer contents give
the same result), and writes nothing outside that shape. -/
theorem C8_output_assignment_and_frame (L : QVectorLayout) (GRAD_PHYS : Bool)
    (NE : Nat) (b g j x : Nat → K) (sdim vdim d1d q1d : Nat) :
    (∀ (y : Nat → K) q c d e, q < q1d → c < vdim → d < sdim → e < NE →
      Derivatives1D L GRAD_PHYS NE g j x y sdim vdim d1d q1d
          (offY1 L NE sdim vdim q1d q c d e) =
        du1D GRAD_PHYS NE g j x sdim vdim d1d q1d e c q d)
    ∧ (∀ (y : Nat → K) o,
        (∀ q c d e, q < q1d → c < vdim → d < sdim → e < NE →
          o ≠ offY1 L NE sdim vdim q1d q c d e) →
        Derivatives1D L GRAD_PHYS NE g j x y sdim vdim d1d q1d o = y o)
    ∧ (∀ (y : Nat → K) qx qy c d e, qx < q1d → qy < q1d → c < vdim →
        d < (if GRAD_PHYS then sdim else 2) → e < NE →
      Derivatives2D L GRAD_PHYS NE b g j x y sdim vdim d1d q1d
          (offY2 L NE (if GRAD_PHYS then sdim else 2) vdim q1d qx qy c d e) =
        du2D GRAD_PHYS NE b g j x sdim vdim d1d q1d e c qx qy d)
    ∧ (∀ (y : Nat → K) o,
        (∀ qx qy c d e, qx < q1d → qy < q1d → c < vdim →
          d < (if GRAD_PHYS then sdim else 2) → e < NE →
          o ≠ offY2 L NE (if GRAD_PHYS then sdim else 2) vdim q1d qx qy c d e) →
        Derivatives2D L GRAD_PHYS NE b g j x y sdim vdim d1d q1d o = y o)
    ∧ (∀ (y : Nat → K) qx qy qz c d e, qx < q1d → qy < q1d → qz < q1d →
        c < vdim → d < 3 → e < NE →
      Derivatives3D L GRAD_PHYS NE b g j x y vdim d1d q1d
          (offY3 L NE vdim q1d qx qy qz c d e) =
        du3D GRAD_PHYS NE b g j x vdim d1d q1d e c qx qy qz d)
    ∧ (∀ (y : Nat → K) o,
        (∀ qx qy qz c d e, qx < q1d → qy < q1d → qz < q1d → c < vdim →
          d < 3 → e < NE → o ≠ offY3 L NE vdim q1d qx qy qz c d e) →
        Derivatives3D L GRAD_PHYS NE b g j x y vdim d1d q1d o = y o) :=
  ⟨fun y _ _ _ _ hq hc hd he => Derivatives1D_read L GRAD_PHYS g j x y hq hc hd he,
    fun y _ ho => Derivatives1D_frame L GRAD_PHYS g j x y ho,
    fun y _ _ _ _ _ hx hy hc hd he =>
      Derivatives2D_read L GRAD_PHYS b g j x y hx hy hc hd he,
    fun y _ ho => Derivatives2D_frame L GRAD_PHYS b g j x y ho,
    fun y _ _ _ _ _ _ hx hy hz hc hd he =>
      Derivatives3D_read L GRAD_PHYS b g j x y hx hy hz hc hd he,
    fun y _ ho => Derivatives3D_frame L GRAD_PHYS b g j x y ho⟩

/-- Witness for C8 at a concrete input. -/
theorem C8_witness :
    0 < 1 ∧
      Derivatives1D (K := ℚ) .byNODES false 1 (fun _ => 3) (fun _ => 7)
          (fun _ => 5) (fun _ => 11) 1 1 1 1 (offY1 .byNODES 1 1 1 1 0 0 0 0) =
        du1D false 1 (fun _ => 3) (fun _ => 7) (fun _ => 5) 1 1 1 1 0 0 0 0 :=
  ⟨Nat.one_pos,
    (C8_output_assignment_and_frame .byNODES false 1 (fun _ => 2) (fun _ => 3)
        (fun _ => 7) (fun _ => 5) 1 1 1 1).1 (fun _ => 11) 0 0 0 0
      (by omega) (by omega) (by omega) (by omega)⟩

/-- Constant input field: `du1D` with the flag off is zero in every
direction when the derivative rows sum to zero. -/
theorem du1D_const_zero {NE : Nat} {g j x : Nat → K} {sdim vdim d1d q1d : Nat}
    {k : Nat → Nat → K} {e c q : Nat}
    (hg : ∀ q, q < q1d → ∑ dd ∈ Finset.range d1d, tab q1d d1d g q dd = 0)
    (hx : ∀ dd, dd < d1d → xin1 d1d vdim NE x dd c e = k c e)
    (hq : q < q1d) (d : Nat) :
    du1D false NE g j x sdim vdim d1d q1d e c q d = 0 := by
  rw [du1D_ref]
  rcases eq_or_ne d 0 with hd | hd
  · subst hd
    rw [if_pos rfl]
    have hs : ∀ dd ∈ Finset.range d1d,
        tab q1d d1d g q dd * xin1 d1d vdim NE x dd c e =
          tab q1d d1d g q dd * k c e :=
      fun dd hdd => by rw [hx dd (Finset.mem_range.mp hdd)]
    rw [Finset.sum_congr rfl hs, ← Finset.sum_mul, hg q hq, zero_mul]
  · rw [if_neg hd]

/-- Constant input field: the value-contracted stage-1 tile of the 2D kernel
is the constant times the row sum of the value table. -/
theorem DQ2D_const_fst {NE : Nat} {b g x : Nat → K} {vdim d1d q1d : Nat}
    {k : Nat → Nat → K} {e c dy qx : Nat}
    (hx : ∀ dx dy, dx < d1d → dy < d1d → xin2 d1d vdim NE x dx dy c e = k c e)
    (hdy : dy < d1d) :
    (DQ2D NE b g x vdim d1d q1d e c dy qx).1 =
      k c e * ∑ dx ∈ Finset.range d1d, tab q1d d1d b qx dx := by
  simp only [DQ2D_eq]
  rw [Finset.mul_sum]
  exact Finset.sum_congr rfl fun dx hdx => by
    rw [hx dx dy (Finset.mem_range.mp hdx) hdy]

/-- Constant input field: the derivative-contracted stage-1 tile of the 2D
kernel is the constant times the row sum of the derivative table. -/
theorem DQ2D_const_snd {NE : Nat} {b g x : Nat → K} {vdim d1d q1d : Nat}
    {k : Nat → Nat → K} {e c dy qx : Nat}
    (hx : ∀ dx dy, dx < d1d → dy < d1d → xin2 d1d vdim NE x dx dy c e = k c e)
    (hdy : dy < d1d) :
    (DQ2D NE b g x vdim d1d q1d e c dy qx).2 =
      k c e * ∑ dx ∈ Finset.range d1d, tab q1d d1d g qx dx := by
  simp only [DQ2D_eq]
  rw [Finset.mul_sum]
  exact Finset.sum_congr rfl fun dx hdx => by
    rw [hx dx dy (Finset.mem_range.mp hdx) hdy]

/-- Constant input field + zero derivative-row sums: the 2D reference
gradient vanishes. -/
theorem du2Dref_const_zero {NE : Nat} {b g x : Nat → K} {vdim d1d q1d : Nat}
    {k : Nat → Nat → K} {e c qx qy : Nat}
    (hg : ∀ q, q < q1d → ∑ dd ∈ Finset.range d1d, tab q1d d1d g q dd = 0)
    (hx : ∀ dx dy, dx < d1d → dy < d1d → xin2 d1d vdim NE x dx dy c e = k c e)
    (hqx : qx < q1d) (hqy : qy < q1d) :
    du2Dref NE b g x vdim d1d q1d e c qx qy = (0, 0) := by
  simp only [du2Dref_eq]
  refine Prod.ext ?_ ?_ <;> simp only
  · refine Finset.sum_eq_zero fun dy hdy => ?_
    rw [DQ2D_const_snd hx (Finset.mem_range.mp hdy), hg qx hqx, mul_zero,
      zero_mul]
  · have hrw : ∀ dy ∈ Finset.range d1d,
        (DQ2D NE b g x vdim d1d q1d e c dy qx).1 * tab q1d d1d g qy dy =
          (k c e * ∑ dx ∈ Finset.range d1d, tab q1d d1d b qx dx) *
            tab q1d d1d g qy dy :=
      fun dy hdy => by rw [DQ2D_const_fst hx (Finset.mem_range.mp hdy)]
    rw [Finset.sum_congr rfl hrw, ← Finset.mul_sum, hg qy hqy, mul_zero]

/-- Constant input field: stage-1 tiles of the 3D kernel. -/
theorem DDQ3D_const_fst {NE : Nat} {b g x : Nat → K} {vdim d1d q1d : Nat}
    {k : Nat → Nat → K} {e c dz dy qx : Nat}
    (hx : ∀ dx dy dz, dx < d1d → dy < d1d → dz < d1d →
      xin3 d1d vdim NE x dx dy dz c e = k c e)
    (hdz : dz < d1d) (hdy : dy < d1d) :
    (DDQ3D NE b g x vdim d1d q1d e c dz dy qx).1 =
      k c e * ∑ dx ∈ Finset.range d1d, tab q1d d1d b qx dx := by
  simp only [DDQ3D_eq]
  rw [Finset.mul_sum]
  exact Finset.sum_congr rfl fun dx hdx => by
    rw [hx dx dy dz (Finset.mem_range.mp hdx) hdy hdz]

theorem DDQ3D_const_snd {NE : Nat} {b g x : Nat → K} {vdim d1d q1d : Nat}
    {k : Nat → Nat → K} {e c dz dy qx : Nat}
    (hx : ∀ dx dy dz, dx < d1d → dy < d1d → dz < d1d →
      xin3 d1d vdim NE x dx dy dz c e = k c e)
    (hdz : dz < d1d) (hdy : dy < d1d) :
    (DDQ3D NE b g x vdim d1d q1d e c dz dy qx).2 =
      k c e * ∑ dx ∈ Finset.range d1d, tab q1d d1d g qx dx := by
  simp only [DDQ3D_eq]
  rw [Finset.mul_sum]
  exact Finset.sum_congr rfl fun dx hdx => by
    rw [hx dx dy dz (Finset.mem_range.mp hdx) hdy hdz]

/-- Constant input field + zero derivative-row sums: the 3D reference
gradient vanishes. -/
theorem du3Dref_const_zero {NE : Nat} {b g x : Nat → K} {vdim d1d q1d : Nat}
    {k : Nat → Nat → K} {e c qx qy qz : Nat}
    (hg : ∀ q, q < q1d → ∑ dd ∈ Finset.range d1d, tab q1d d1d g q dd = 0)
    (hx : ∀ dx dy dz, dx < d1d → dy < d1d → dz < d1d →
      xin3 d1d vdim NE x dx dy dz c e = k c e)
    (hqx : qx < q1d) (hqy : qy < q1d) (hqz : qz < q1d) :
    du3Dref NE b g x vdim d1d q1d e c qx qy qz = (0, 0, 0) := by
  simp only [du3Dref_eq]
  refine Prod.ext ?_ (Prod.ext ?_ ?_) <;> simp only
  · refine Finset.sum_eq_zero fun dz hdz => ?_
    have h1 : (DQQ3D NE b g x vdim d1d q1d e c dz qy qx).1 = 0 := by
      simp only [DQQ3D_eq]
      refine Finset.sum_eq_zero fun dy hdy => ?_
      rw [DDQ3D_const_snd hx (Finset.mem_range.mp hdz) (Finset.mem_range.mp hdy),
        hg qx hqx, mul_zero, zero_mul]
    rw [h1, zero_mul]
  · refine Finset.sum_eq_zero fun dz hdz => ?_
    have h1 : (DQQ3D NE b g x vdim d1d q1d e c dz qy qx).2.1 = 0 := by
      simp only [DQQ3D_eq]
      have hrw : ∀ dy ∈ Finset.range d1d,
          (DDQ3D NE b g x vdim d1d q1d e c dz dy qx).1 * tab q1d d1d g qy dy =
            (k c e * ∑ dx ∈ Finset.range d1d, tab q1d d1d b qx dx) *
              tab q1d d1d g qy dy :=
        fun dy hdy => by
          rw [DDQ3D_const_fst hx (Finset.mem_range.mp hdz) (Finset.mem_range.mp hdy)]
      rw [Finset.sum_congr rfl hrw, ← Finset.mul_sum, hg qy hqy, mul_zero]
    rw [h1, zero_mul]
  · have h1 : ∀ dz ∈ Finset.range d1d,
        (DQQ3D NE b g x vdim d1d q1d e c dz qy qx).2.2 * tab q1d d1d g qz dz =
          ((k c e * ∑ dx ∈ Finset.range d1d, tab q1d d1d b qx dx) *
            ∑ dy ∈ Finset.range d1d, tab q1d d1d b qy dy) * tab q1d d1d g qz dz := by
      intro dz hdz
      have h2 : (DQQ3D NE b g x vdim d1d q1d e c dz qy qx).2.2 =
          (k c e * ∑ dx ∈ Finset.range d1d, tab q1d d1d b qx dx) *
            ∑ dy ∈ Finset.range d1d, tab q1d d1d b qy dy := by
        simp only [DQQ3D_eq]
        have hrw : ∀ dy ∈ Finset.range d1d,
            (DDQ3D NE b g x vdim d1d q1d e c dz dy qx).1 * tab q1d d1d b qy dy =
              (k c e * ∑ dx ∈ Finset.range d1d, tab q1d d1d b qx dx) *
                tab q1d d1d b qy dy :=
          fun dy hdy => by
            rw [DDQ3D_const_fst hx (Finset.mem_range.mp hdz) (Finset.mem_range.mp hdy)]
        rw [Finset.sum_congr rfl hrw, ← Finset.mul_sum]
      rw [h2]
    rw [Finset.sum_congr rfl h1, ← Finset.mul_sum, hg qz hqz, mul_zero]

/-- Claim C5: with the physical-transform flag off, a spatially constant
input field (per element and component) together with zero row sums of the
derivative table yields all-zero reference-space gradients from all three
kernels, at every quadrature point, component and direction. -/
theorem C5_constant_field_zero_gradient (L : QVectorLayout) {NE : Nat}
    (b g j x1 x2 x3 y : Nat → K) (sdim : Nat) {vdim d1d q1d : Nat}
    (k : Nat → Nat → K) (q qx qy qz c e : Nat)
    (hg : ∀ qq, qq < q1d → ∑ dd ∈ Finset.range d1d, tab q1d d1d g qq dd = 0)
    (hx1 : ∀ dd cc ee, dd < d1d → xin1 d1d vdim NE x1 dd cc ee = k cc ee)
    (hx2 : ∀ dx dy cc ee, dx < d1d → dy < d1d →
      xin2 d1d vdim NE x2 dx dy cc ee = k cc ee)
    (hx3 : ∀ dx dy dz cc ee, dx < d1d → dy < d1d → dz < d1d →
      xin3 d1d vdim NE x3 dx dy dz cc ee = k cc ee)
    (hq : q < q1d) (hvx : qx < q1d) (hvy : qy < q1d) (hvz : qz < q1d)
    (hc : c < vdim) (he : e < NE) :
    (∀ d, d < sdim →
      Derivatives1D L false NE g j x1 y sdim vdim d1d q1d
        (offY1 L NE sdim vdim q1d q c d e) = 0)
    ∧ (∀ d, d < 2 →
      Derivatives2D L false NE b g j x2 y sdim vdim d1d q1d
        (offY2 L NE 2 vdim q1d qx qy c d e) = 0)
    ∧ (∀ d, d < 3 →
      Derivatives3D L false NE b g j x3 y vdim d1d q1d
        (offY3 L NE vdim q1d qx qy qz c d e) = 0) := by
  refine ⟨fun d hd => ?_, fun d hd => ?_, fun d hd => ?_⟩
  · rw [Derivatives1D_read L false g j x1 y hq hc hd he]
    exact du1D_const_zero hg (fun dd hdd => hx1 dd c e hdd) hq d
  · rw [Derivatives2D_read_off L b g j x2 y hvx hvy hc hd he, du2D_false,
      du2Dref_const_zero hg (fun dx dy h1 h2 => hx2 dx dy c e h1 h2) hvx hvy]
    rcases eq_or_ne d 0 with h | h
    · simp [h]
    · rcases eq_or_ne d 1 with h' | h' <;> simp [h, h']
  · rw [Derivatives3D_read L false b g j x3 y hvx hvy hvz hc hd he, du3D_false,
      du3Dref_const_zero hg (fun dx dy dz h1 h2 h3 => hx3 dx dy dz c e h1 h2 h3)
        hvx hvy hvz]
    rcases eq_or_ne d 0 with h | h
    · simp [h]
    · rcases eq_or_ne d 1 with h' | h'
      · simp [h, h']
      · rcases eq_or_ne d 2 with h'' | h'' <;> simp [h, h', h'']

/-- Witness for C5: two-dof derivative row (1, -1), constant field 5. -/
theorem C5_witness :
    0 < 1 ∧
      Derivatives1D (K := ℚ) .byNODES false 1
          (fun n => if n = 0 then 1 else -1) (fun _ => 7) (fun _ => 5)
          (fun _ => 11) 1 1 2 1 (offY1 .byNODES 1 1 1 1 0 0 0 0) = 0 :=
  ⟨Nat.one_pos,
    (C5_constant_field_zero_gradient .byNODES (fun _ => 2)
        (fun n => if n = 0 then 1 else -1) (fun _ => 7) (fun _ => 5)
        (fun _ => 5) (fun _ => 5) (fun _ => 11) 1 (fun _ _ => 5) 0 0 0 0 0 0
        (by
          intro qq hqq
          have hqq0 : qq = 0 := by omega
          subst hqq0
          simp [Finset.sum_range_succ, tab, flatIdx])
        (fun _ _ _ _ => rfl) (fun _ _ _ _ _ _ => rfl)
        (fun _ _ _ _ _ _ _ _ => rfl) (by omega) (by omega) (by omega) (by omega)
        (by omega) (by omega)).1 0 (by omega)⟩

/-- Unit scalar Jacobian: the 1D physical branch reduces to the reference
branch. -/
theorem du1D_identity {NE : Nat} {g j x : Nat → K} {vdim d1d q1d : Nat}
    {e c q : Nat} (hj : jac1 q1d 1 NE j q 0 e = 1) (d : Nat) :
    du1D true NE g j x 1 vdim d1d q1d e c q d =
      du1D false NE g j x 1 vdim d1d q1d e c q d := by
  simp [du1D, hj]

/-- Identity 2×2 Jacobian: the 2D physical branch reduces to the reference
branch. -/
theorem du2D_identity {NE : Nat} {b g j x : Nat → K} {vdim d1d q1d : Nat}
    {e c qx qy : Nat}
    (hj : ∀ r cc, r < 2 → cc < 2 →
      jac2 q1d 2 NE j qx qy r cc e = if r = cc then 1 else 0)
    (d : Nat) :
    du2D true NE b g j x 2 vdim d1d q1d e c qx qy d =
      du2D false NE b g j x 2 vdim d1d q1d e c qx qy d := by
  have h00 := hj 0 0 (by omega) (by omega)
  have h10 := hj 1 0 (by omega) (by omega)
  have h01 := hj 0 1 (by omega) (by omega)
  have h11 := hj 1 1 (by omega) (by omega)
  norm_num at h00 h10 h01 h11
  simp [du2D, CalcInverse2, h00, h10, h01, h11]

/-- Identity 3×3 Jacobian: the 3D physical branch reduces to the reference
branch. -/
theorem du3D_identity {NE : Nat} {b g j x : Nat → K} {vdim d1d q1d : Nat}
    {e c qx qy qz : Nat}
    (hj : ∀ r cc, r < 3 → cc < 3 →
      jac3 q1d NE j qx qy qz r cc e = if r = cc then 1 else 0)
    (d : Nat) :
    du3D true NE b g j x vdim d1d q1d e c qx qy qz d =
      du3D false NE b g j x vdim d1d q1d e c qx qy qz d := by
  have h00 := hj 0 0 (by omega) (by omega)
  have h10 := hj 1 0 (by omega) (by omega)
  have h20 := hj 2 0 (by omega) (by omega)
  have h01 := hj 0 1 (by omega) (by omega)
  have h11 := hj 1 1 (by omega) (by omega)
  have h21 := hj 2 1 (by omega) (by omega)
  have h02 := hj 0 2 (by omega) (by omega)
  have h12 := hj 1 2 (by omega) (by omega)
  have h22 := hj 2 2 (by omega) (by omega)
  norm_num at h00 h10 h20 h01 h11 h21 h02 h12 h22
  simp [du3D, CalcInverse3, h00, h10, h20, h01, h11, h21, h02, h12, h22]

/-- Claim C4: for each kernel, with the physical-transform flag on, reference
dimension equal to physical dimension, and identity Jacobians stored at every
quadrature point of every element, the output equals entry for entry the
output of the same call with the flag off. -/
theorem C4_identity_jacobian_phys_equals_ref (L : QVectorLayout) {NE : Nat}
    (b g j1 j2 j3 x y : Nat → K) {vdim d1d q1d : Nat} (q qx qy qz c e : Nat)
    (hj1 : ∀ qq ee, qq < q1d → ee < NE → jac1 q1d 1 NE j1 qq 0 ee = 1)
    (hj2 : ∀ ax ay r cc ee, ax < q1d → ay < q1d → r < 2 → cc < 2 → ee < NE →
      jac2 q1d 2 NE j2 ax ay r cc ee = if r = cc then 1 else 0)
    (hj3 : ∀ ax ay az r cc ee, ax < q1d → ay < q1d → az < q1d → r < 3 →
      cc < 3 → ee < NE →
      jac3 q1d NE j3 ax ay az r cc ee = if r = cc then 1 else 0)
    (hq : q < q1d) (hvx : qx < q1d) (hvy : qy < q1d) (hvz : qz < q1d)
    (hc : c < vdim) (he : e < NE) :
    (∀ d, d < 1 →
      Derivatives1D L true NE g j1 x y 1 vdim d1d q1d
          (offY1 L NE 1 vdim q1d q c d e) =
        Derivatives1D L false NE g j1 x y 1 vdim d1d q1d
          (offY1 L NE 1 vdim q1d q c d e))
    ∧ (∀ d, d < 2 →
      Derivatives2D L true NE b g j2 x y 2 vdim d1d q1d
          (offY2 L NE 2 vdim q1d qx qy c d e) =
        Derivatives2D L false NE b g j2 x y 2 vdim d1d q1d
          (offY2 L NE 2 vdim q1d qx qy c d e))
    ∧ (∀ d, d < 3 →
      Derivatives3D L true NE b g j3 x y vdim d1d q1d
          (offY3 L NE vdim q1d qx qy qz c d e) =
        Derivatives3D L false NE b g j3 x y vdim d1d q1d
          (offY3 L NE vdim q1d qx qy qz c d e)) := by
  refine ⟨fun d hd => ?_, fun d hd => ?_, fun d hd => ?_⟩
  · rw [Derivatives1D_read L true g j1 x y hq hc hd he,
      Derivatives1D_read L false g j1 x y hq hc hd he]
    exact du1D_identity (hj1 q e hq he) d
  · rw [Derivatives2D_read_on L b g j2 x y hvx hvy hc hd he,
      Derivatives2D_read_off L b g j2 x y hvx hvy hc hd he]
    exact du2D_identity (fun r cc hr hcc => hj2 qx qy r cc e hvx hvy hr hcc he) d
  · rw [Derivatives3D_read L true b g j3 x y hvx hvy hvz hc hd he,
      Derivatives3D_read L false b g j3 x y hvx hvy hvz hc hd he]
    exact du3D_identity
      (fun r cc hr hcc => hj3 qx qy qz r cc e hvx hvy hvz hr hcc he) d

/-- Witness for C4: identity Jacobians encoded in the flat buffers at
q1d = NE = 1. -/
theorem C4_witness :
    0 < 1 ∧
      Derivatives1D (K := ℚ) .byNODES true 1 (fun _ => 3) (fun _ => 1)
          (fun _ => 5) (fun _ => 11) 1 1 1 1 (offY1 .byNODES 1 1 1 1 0 0 0 0) =
        Derivatives1D (K := ℚ) .byNODES false 1 (fun _ => 3) (fun _ => 1)
          (fun _ => 5) (fun _ => 11) 1 1 1 1 (offY1 .byNODES 1 1 1 1 0 0 0 0) :=
  ⟨Nat.one_pos,
    (C4_identity_jacobian_phys_equals_ref .byNODES (fun _ => 2) (fun _ => 3)
        (fun _ => 1)
        (fun n => if n = 0 then 1 else if n = 3 then 1 else 0)
        (fun n => if n = 0 then 1 else if n = 4 then 1 else if n = 8 then 1 else 0)
        (fun _ => 5) (fun _ => 11) 0 0 0 0 0 0
        (fun _ _ _ _ => rfl)
        (by
          intro ax ay r cc ee hax hay hr hcc hee
          interval_cases ax <;> interval_cases ay <;> interval_cases ee <;>
            interval_cases r <;> interval_cases cc <;>
              simp [jac2, flatIdx])
        (by
          intro ax ay az r cc ee hax hay haz hr hcc hee
          interval_cases ax <;> interval_cases ay <;> interval_cases az <;>
            interval_cases ee <;> interval_cases r <;> interval_cases cc <;>
              simp [jac3, flatIdx])
        (by omega) (by omega) (by omega) (by omega) (by omega) (by omega)).1 0
      (by omega)⟩

/-- The claim's `J⁻¹` for a 2×2 matrix with entries `J r c`: entry (s, t) of
the inverse, by the cofactor closed form. -/
def inv2entry (J : Nat → Nat → K) (s t : Nat) : K :=
  let det := J 0 0 * J 1 1 - J 0 1 * J 1 0
  if s = 0 then (if t = 0 then J 1 1 / det else -J 0 1 / det)
  else (if t = 0 then -J 1 0 / det else J 0 0 / det)

/-- The claim's left pseudo-inverse `(JᵀJ)⁻¹Jᵀ` of a 3×2 matrix with entries
`J r c` (r < 3, c < 2): entry (s, t) for s < 2, t < 3, computed
compositionally from the normal-equations formula. -/
def leftPinv32entry (J : Nat → Nat → K) (s t : Nat) : K :=
  let JtJ : Nat → Nat → K := fun a bb =>
    J 0 a * J 0 bb + J 1 a * J 1 bb + J 2 a * J 2 bb
  inv2entry JtJ s 0 * J t 0 + inv2entry JtJ s 1 * J t 1

/-- Determinant of a 2×2 matrix with entries `J r c`. -/
def det2 (J : Nat → Nat → K) : K := J 0 0 * J 1 1 - J 0 1 * J 1 0

/-- Gram determinant `det(JᵀJ)` of a 3×2 matrix with entries `J r c`
(nonzero exactly when `J` has full column rank). -/
def gram2det (J : Nat → Nat → K) : K :=
  (J 0 0 * J 0 0 + J 1 0 * J 1 0 + J 2 0 * J 2 0) *
      (J 0 1 * J 0 1 + J 1 1 * J 1 1 + J 2 1 * J 2 1) -
    (J 0 0 * J 0 1 + J 1 0 * J 1 1 + J 2 0 * J 2 1) *
      (J 0 0 * J 0 1 + J 1 0 * J 1 1 + J 2 0 * J 2 1)

/-- Counterexample to claim C3 as stated: at a concrete invocation with the
non-symmetric invertible Jacobian J = [[1,1],[0,1]] (sdim = 2 case), the
physical derivative written by `Derivatives2D` is NOT `J⁻¹` applied (as a
matrix to a column vector) to the reference-derivative pair — the kernel
applies the transpose `J⁻ᵀ`. -/
theorem C3_counterexample :
    Derivatives2D (K := ℚ) .byNODES true 1 (fun _ => 1) (fun _ => 1)
        (fun n => if n = 0 then 1 else if n = 1 then 0 else 1) (fun _ => 1)
        (fun _ => 0) 2 1 1 1 (offY2 .byNODES 1 2 1 1 0 0 0 0 0) ≠
      inv2entry (fun r cc =>
          jac2 1 2 1 (fun n => if n = 0 then (1 : ℚ) else if n = 1 then 0 else 1)
            0 0 r cc 0) 0 0 *
          (du2Dref 1 (fun _ => 1) (fun _ => 1) (fun _ => 1) 1 1 1 0 0 0 0).1 +
        inv2entry (fun r cc =>
          jac2 1 2 1 (fun n => if n = 0 then (1 : ℚ) else if n = 1 then 0 else 1)
            0 0 r cc 0) 0 1 *
          (du2Dref 1 (fun _ => 1) (fun _ => 1) (fun _ => 1) 1 1 1 0 0 0 0).2 := by
  rw [Derivatives2D_read_on (K := ℚ) .byNODES (fun _ => 1) (fun _ => 1)
    (fun n => if n = 0 then 1 else if n = 1 then 0 else 1) (fun _ => 1)
    (fun _ => 0) (by omega) (by omega) (by omega) (by omega) (by omega)]
  norm_num [du2D, du2Dref, DQ2D, CalcInverse2, inv2entry, jac2, xin2, tab,
    flatIdx, List.range_succ]

/-- Claim C3 amended: in `Derivatives2D` with the physical flag on, the
physical derivatives are the reference pair acted on by the TRANSPOSE of the
claimed operator — `out_d = du₀·P(0,d) + du₁·P(1,d)` (a row vector times the
matrix), with `P = J⁻¹` when sdim = 2 and `P = (JᵀJ)⁻¹Jᵀ` when sdim = 3;
equivalently `J⁻ᵀ` resp. `((JᵀJ)⁻¹Jᵀ)ᵀ = J(JᵀJ)⁻¹` applied to the column. -/
theorem C3_phys_transform_transpose_apply (L : QVectorLayout) {NE : Nat}
    (b g j2 j3 x y : Nat → K) {vdim d1d q1d : Nat} (qx qy c e : Nat)
    (hvx : qx < q1d) (hvy : qy < q1d) (hc : c < vdim) (he : e < NE)
    (hdet2 : det2 (fun r cc => jac2 q1d 2 NE j2 qx qy r cc e) ≠ 0)
    (hdet3 : gram2det (fun r cc => jac2 q1d 3 NE j3 qx qy r cc e) ≠ 0) :
    (∀ d, d < 2 →
      Derivatives2D L true NE b g j2 x y 2 vdim d1d q1d
          (offY2 L NE 2 vdim q1d qx qy c d e) =
        (du2Dref NE b g x vdim d1d q1d e c qx qy).1 *
            inv2entry (fun r cc => jac2 q1d 2 NE j2 qx qy r cc e) 0 d +
          (du2Dref NE b g x vdim d1d q1d e c qx qy).2 *
            inv2entry (fun r cc => jac2 q1d 2 NE j2 qx qy r cc e) 1 d)
    ∧ (∀ d, d < 3 →
      Derivatives2D L true NE b g j3 x y 3 vdim d1d q1d
          (offY2 L NE 3 vdim q1d qx qy c d e) =
        (du2Dref NE b g x vdim d1d q1d e c qx qy).1 *
            leftPinv32entry (fun r cc => jac2 q1d 3 NE j3 qx qy r cc e) 0 d +
          (du2Dref NE b g x vdim d1d q1d e c qx qy).2 *
            leftPinv32entry (fun r cc => jac2 q1d 3 NE j3 qx qy r cc e) 1 d) := by
  constructor
  · intro d hd
    rw [Derivatives2D_read_on L b g j2 x y hvx hvy hc hd he]
    interval_cases d <;>
      · simp [du2D, CalcInverse2, inv2entry]
        ring
  · intro d hd
    rw [Derivatives2D_read_on L b g j3 x y hvx hvy hc hd he]
    interval_cases d <;>
      · simp [du2D, CalcLeftInverse32, leftPinv32entry, inv2entry]
        ring

/-- Witness for the amended C3 at a concrete full-rank input. -/
theorem C3_witness :
    0 < 1 ∧
      Derivatives2D (K := ℚ) .byNODES true 1 (fun _ => 1) (fun _ => 1)
          (fun n => if n = 0 then 1 else if n = 3 then 1 else 0) (fun _ => 1)
          (fun _ => 0) 2 1 1 1 (offY2 .byNODES 1 2 1 1 0 0 0 0 0) =
        (du2Dref 1 (fun _ => 1) (fun _ => 1) (fun _ => 1) 1 1 1 0 0 0 0).1 *
            inv2entry (fun r cc =>
              jac2 1 2 1 (fun n => if n = 0 then (1 : ℚ) else if n = 3 then 1 else 0)
                0 0 r cc 0) 0 0 +
          (du2Dref 1 (fun _ => 1) (fun _ => 1) (fun _ => 1) 1 1 1 0 0 0 0).2 *
            inv2entry (fun r cc =>
              jac2 1 2 1 (fun n => if n = 0 then (1 : ℚ) else if n = 3 then 1 else 0)
                0 0 r cc 0) 1 0 :=
  ⟨Nat.one_pos,
    (C3_phys_transform_transpose_apply .byNODES (fun _ => 1) (fun _ => 1)
        (fun n => if n = 0 then 1 else if n = 3 then 1 else 0)
        (fun n => if n = 0 then 1 else if n = 4 then 1 else 0)
        (fun _ => 1) (fun _ => 0) 0 0 0 0 (by omega) (by omega) (by omega)
        (by omega)
        (by norm_num [det2, jac2, flatIdx])
        (by norm_num [gram2det, jac2, flatIdx])).1 0 (by omega)⟩

end Claims

end QuadratureInterpolator
